import Mathlib

/-!
Shallow embedding of the DDR-to-Singular synchronization engine of
`elliotts_singular_controls/core.py` (Elliotts-Singular-Controls).

Conventions of the embedding:
* Python floats are modelled as exact rationals (`ℚ`); `round` is
  round-half-to-even on rationals.
* Python strings are Lean `String`s; character-level work happens on
  `String.data` (`List Char`).  The numeric parsers model the common
  (ASCII, no underscore separators, finite) behaviour of `int()` and
  `float()`; non-finite literals such as `inf`/`nan` have no rational
  counterpart and are outside the embedding.
* A raised Python exception is an `Except.error` carrying a `PyExn`;
  `try/except` blocks become `match`es on the `Except` value.
* The network is a deterministic oracle (`World` records of functions)
  supplied as an argument; global mutable state (`_last_ddr_values`,
  `_singular_field_map_cache`, `REGISTRY`, `ID_TO_KEY`) is threaded
  explicitly as association lists with replace-on-insert semantics,
  matching Python dict behaviour (insertion order preserved).
-/

/-- Python `str.strip()`: drop leading and trailing whitespace. -/
def pyStripChars (s : List Char) : List Char :=
  ((s.dropWhile Char.isWhitespace).reverse.dropWhile Char.isWhitespace).reverse

/-- Python `str.lower()` on the character list (ASCII model). -/
def pyLowerChars (s : List Char) : List Char := s.map Char.toLower

/-- Python `str.lower()`. -/
def pyLower (s : String) : String := ⟨pyLowerChars s.data⟩

/-- Python `s.split(sep)` for a one-character separator: every occurrence
splits, empty pieces are kept, the result is never empty. -/
def pySplitOn (sep : Char) : List Char → List (List Char)
  | [] => [[]]
  | c :: rest =>
    let r := pySplitOn sep rest
    if c = sep then [] :: r
    else
      match r with
      | [] => [[c]]
      | g :: gs => (c :: g) :: gs

/-- Value of one ASCII decimal digit. -/
def decDigitVal (c : Char) : Option ℕ := if c.isDigit then some (c.toNat - 48) else none

/-- Accumulating parse of an all-digit suffix. -/
def digitsValAux : List Char → ℕ → Option ℕ
  | [], acc => some acc
  | c :: cs, acc =>
    match decDigitVal c with
    | some d => digitsValAux cs (acc * 10 + d)
    | none => none

/-- Parse a nonempty all-digit string to its value. -/
def digitsVal? : List Char → Option ℕ
  | [] => none
  | c :: cs => digitsValAux (c :: cs) 0

/-- Python `int(s)` after stripping: optional sign then digits. -/
def pyIntCore? : List Char → Option ℤ
  | '+' :: rest => (digitsVal? rest).map (fun n => (n : ℤ))
  | '-' :: rest => (digitsVal? rest).map (fun n => -(n : ℤ))
  | l => (digitsVal? l).map (fun n => (n : ℤ))

/-- Python `int(s)` (raising calls are modelled by `none`). -/
def pyInt? (s : List Char) : Option ℤ := pyIntCore? (pyStripChars s)

/-- Leading digits of a string together with the remainder. -/
def spanDigits : List Char → List ℕ × List Char
  | [] => ([], [])
  | c :: cs =>
    match decDigitVal c with
    | some d =>
      let p := spanDigits cs
      (d :: p.1, p.2)
    | none => ([], c :: cs)

/-- Value of big-endian digits. -/
def natOfDigits (l : List ℕ) : ℕ := l.foldl (fun a d => a * 10 + d) 0

/-- Value of the digits after a decimal point. -/
def fracOfDigits (l : List ℕ) : ℚ := l.foldr (fun d a => ((d : ℚ) + a) / 10) 0

/-- Exponent part of a float literal, after the `e`. -/
def pyFloatExp? : List Char → Option ℤ
  | '+' :: r => (digitsVal? r).map (fun n => (n : ℤ))
  | '-' :: r => (digitsVal? r).map (fun n => -(n : ℤ))
  | r => (digitsVal? r).map (fun n => (n : ℤ))

/-- Syntactic shape of an accepted Python float literal: sign, integer-part
digits, fractional-part digits, exponent. -/
structure FloatLit where
  neg : Bool
  ip : List ℕ
  fp : List ℕ
  ex : ℤ
  deriving DecidableEq

/-- Unsigned part of a Python float literal:
`digits [. digits] [exp]` or `. digits [exp]`.  Returns the digit lists and
the exponent. -/
def pyFloatMagParse? (l : List Char) : Option (List ℕ × List ℕ × ℤ) :=
  let p := spanDigits l
  match p.2 with
  | [] => if p.1 = [] then none else some (p.1, [], 0)
  | '.' :: r2 =>
    let q := spanDigits r2
    if p.1 = [] ∧ q.1 = [] then none
    else
      match q.2 with
      | [] => some (p.1, q.1, 0)
      | 'e' :: r4 => (pyFloatExp? r4).map (fun e => (p.1, q.1, e))
      | 'E' :: r4 => (pyFloatExp? r4).map (fun e => (p.1, q.1, e))
      | _ => none
  | 'e' :: r4 =>
    if p.1 = [] then none else (pyFloatExp? r4).map (fun e => (p.1, [], e))
  | 'E' :: r4 =>
    if p.1 = [] then none else (pyFloatExp? r4).map (fun e => (p.1, [], e))
  | _ => none

/-- Parse a Python float literal (after stripping): optional sign, magnitude. -/
def pyFloatParse? : List Char → Option FloatLit
  | '+' :: r => (pyFloatMagParse? r).map (fun m => ⟨false, m.1, m.2.1, m.2.2⟩)
  | '-' :: r => (pyFloatMagParse? r).map (fun m => ⟨true, m.1, m.2.1, m.2.2⟩)
  | l => (pyFloatMagParse? l).map (fun m => ⟨false, m.1, m.2.1, m.2.2⟩)

/-- Rational value denoted by an accepted float literal. -/
def floatLitVal (f : FloatLit) : ℚ :=
  (if f.neg then -1 else 1) * (((natOfDigits f.ip : ℚ) + fracOfDigits f.fp) * (10 : ℚ) ^ f.ex)

/-- Python `float(s)` (raising calls are modelled by `none`). -/
def pyFloat? (s : List Char) : Option ℚ :=
  (pyFloatParse? (pyStripChars s)).map floatLitVal

/-- Python `round(x)`: nearest integer, ties to even. -/
def pyRound (x : ℚ) : ℤ :=
  if x - ⌊x⌋ < 1 / 2 then ⌊x⌋
  else if 1 / 2 < x - ⌊x⌋ then ⌊x⌋ + 1
  else if ⌊x⌋ % 2 = 0 then ⌊x⌋ else ⌊x⌋ + 1

/-- Python `round(x, 2)`. -/
def pyRound2 (x : ℚ) : ℚ := (pyRound (x * 100) : ℚ) / 100

/-- Python exceptions that the synchronization engine can raise. -/
inductive PyExn where
  | httpExc (status : ℕ) (detail : String)
  | valueError (detail : String)
  | requestError (detail : String)
  deriving DecidableEq

/-- Message used when rendering an exception with `str(e)` (the claims only
rely on the slot-scoping wrapper around this text, not on its exact shape). -/
def pyExnStr : PyExn → String
  | .httpExc _ detail => detail
  | .valueError detail => detail
  | .requestError detail => detail

/-- The 2- and 3-part colon branches of `_timecode_to_seconds`; `Except.error`
models the uncaught `ValueError` that `int()` / `float()` raise there on a
malformed component. -/
def timecodeColonParts : List (List Char) → Except PyExn (Option ℚ)
  | [h, m, sec] =>
    match pyInt? h, pyInt? m, pyFloat? sec with
    | some hv, some mv, some sv => .ok (some ((hv : ℚ) * 3600 + (mv : ℚ) * 60 + sv))
    | _, _, _ => .error (.valueError "invalid literal")
  | [m, sec] =>
    match pyInt? m, pyFloat? sec with
    | some mv, some sv => .ok (some ((mv : ℚ) * 60 + sv))
    | _, _ => .error (.valueError "invalid literal")
  | _ => .ok none

/-- Model of `_timecode_to_seconds` (core.py lines 451-470). -/
def timecode_to_seconds (timecode : Option String) : Except PyExn (Option ℚ) :=
  match timecode with
  | none => .ok none
  | some tc =>
    let s := pyStripChars tc.data
    if s = [] then .ok none
    else if s.contains ':' then timecodeColonParts (pySplitOn ':' s)
    else .ok (pyFloat? s)

/-- The pre-carry computation of `_split_minutes_seconds`: clamp, optional
frame rounding, split at 60, add the 1e-9 epsilon and round the seconds to
2 decimal places.  `round_mode` is `CONFIG.tricaster_round_mode`, passed
explicitly; the Python truthiness test `fps and fps > 0` holds exactly when
`fps = some f` with `0 < f`. -/
def splitRawMS (total_seconds : ℚ) (fps : Option ℚ) (round_mode : String) : ℤ × ℚ :=
  let ts0 := max 0 total_seconds
  let ts :=
    match fps with
    | some f =>
      if pyLower round_mode = "frames" ∧ 0 < f then (pyRound (ts0 * f) : ℚ) / f else ts0
    | none => ts0
  let minutes := ⌊ts / 60⌋
  (minutes, pyRound2 (ts - (minutes : ℚ) * 60 + 1 / 1000000000))

/-- Model of `_split_minutes_seconds` (core.py lines 473-484). -/
def split_minutes_seconds (total_seconds : ℚ) (fps : Option ℚ) (round_mode : String) : ℤ × ℚ :=
  let p := splitRawMS total_seconds fps round_mode
  if 60 ≤ p.2 then (p.1 + 1, 0) else p

/-- Little-endian decimal digits, with fuel for structural recursion. -/
def decDigitsAux : ℕ → ℕ → List ℕ
  | _, 0 => []
  | 0, _ + 1 => []
  | fuel + 1, n + 1 => ((n + 1) % 10) :: decDigitsAux fuel ((n + 1) / 10)

/-- Little-endian decimal digits of a natural number. -/
def decDigits (n : ℕ) : List ℕ := decDigitsAux n n

/-- Value of little-endian digits (used to reason about `decDigits`). -/
def undigits : List ℕ → ℕ
  | [] => 0
  | d :: ds => d + 10 * undigits ds

/-- ASCII character of one decimal digit. -/
def digitChar (d : ℕ) : Char := Char.ofNat (48 + d)

/-- Python `str(n)` for a natural number. -/
def natToStr (n : ℕ) : String :=
  if n = 0 then "0" else ⟨((decDigits n).map digitChar).reverse⟩

/-- Python `str(z)` for an integer. -/
def intToStr (z : ℤ) : String :=
  if z < 0 then "-" ++ natToStr z.natAbs else natToStr z.natAbs

/-- Python truthiness of an optional string: `None` and `""` are falsy. -/
def strTruthy : Option String → Bool
  | none => false
  | some s => !(s == "")

/-- Python `a or b` for optional strings. -/
def pyOrStr (a b : Option String) : Option String := if strTruthy a then a else b

/-- Python `(a or "")` for an optional string. -/
def pyOrEmpty (a : Option String) : String := if strTruthy a then a.getD "" else ""

/-- Association list with Python dict semantics: replace the value at an
existing key in place, otherwise append (insertion order preserved). -/
def assocSet {β : Type} : List (String × β) → String → β → List (String × β)
  | [], k, v => [(k, v)]
  | (k0, v0) :: rest, k, v =>
    if k0 = k then (k0, v) :: rest else (k0, v0) :: assocSet rest k v

/-- Python `d.get(k)`. -/
def assocGet {β : Type} : List (String × β) → String → Option β
  | [], _ => none
  | (k0, v0) :: rest, k => if k0 = k then some v0 else assocGet rest k

/-- Attributes of one DDR element in the parsed TriCaster status XML. -/
structure DDREl where
  file_duration : Option String
  duration : Option String
  clip_framerate : Option String
  clip_seconds_elapsed : Option String
  clip_seconds_remaining : Option String

/-- Parsed TriCaster dictionary document, abstracted to the two element
lookups the code performs: the attribute-indexed form and the
numerically-suffixed tag form for a given DDR index. -/
structure DDRDoc where
  byIndex : ℤ → Option DDREl
  byTag : ℤ → Option DDREl

/-- The `clip_framerate` extraction: guarded by truthiness, `float()` failure
swallowed by the inner `try/except ValueError: pass`. -/
def parseFpsAttr (a : Option String) : Option ℚ :=
  match a with
  | some s => if s = "" then none else pyFloat? s.data
  | none => none

/-- Strategy 2 of `_get_ddr_duration_and_fps`: the `<ddr{i}>` tag form, with
duration reconstructed from `clip_seconds_elapsed + clip_seconds_remaining`
when the duration attribute is absent.  `none` means this key attempt failed
(either no element, no duration, or an exception aborting the `try` body). -/
def ddrTagAttempt (doc : DDRDoc) (i : ℤ) : Option (ℚ × Option ℚ) :=
  match doc.byTag i with
  | none => none
  | some el =>
    match timecode_to_seconds (pyOrStr el.file_duration el.duration) with
    | .error _ => none
    | .ok durOpt =>
      let dur :=
        match durOpt with
        | some d => some d
        | none =>
          if strTruthy el.clip_seconds_elapsed ∧ strTruthy el.clip_seconds_remaining then
            match el.clip_seconds_elapsed, el.clip_seconds_remaining with
            | some ev, some rv =>
              match pyFloat? ev.data, pyFloat? rv.data with
              | some e1, some r1 => some (e1 + r1)
              | _, _ => none
            | _, _ => none
          else none
      match dur with
      | some d => some (d, parseFpsAttr el.clip_framerate)
      | none => none

/-- One iteration of the dictionary-key loop in `_get_ddr_duration_and_fps`:
`none` models the `except Exception: continue` (transport failure, XML parse
failure, or a `ValueError` escaping `_timecode_to_seconds`) as well as a key
that yields no duration. -/
def ddrKeyAttempt (docE : Except PyExn DDRDoc) (i : ℤ) : Option (ℚ × Option ℚ) :=
  match docE with
  | .error _ => none
  | .ok doc =>
    match doc.byIndex i with
    | some el =>
      match timecode_to_seconds (pyOrStr el.file_duration el.duration) with
      | .error _ => none
      | .ok durOpt =>
        match durOpt with
        | some dur => some (dur, parseFpsAttr el.clip_framerate)
        | none => ddrTagAttempt doc i
    | none => ddrTagAttempt doc i

/-- Model of `_get_ddr_duration_and_fps` (core.py 487-537).  `dict_fetch`
models `tricaster_request` on `/v1/dictionary?key=...` followed by
`ET.fromstring`; its `Except.error` is any exception raised there — in
particular the `HTTPException(503, ...)` that `tricaster_request` raises on a
transport failure, timeout or non-success status. -/
def get_ddr_duration_and_fps (enable_tricaster : Bool) (tricaster_host : Option String)
    (dict_fetch : String → Except PyExn DDRDoc) (ddr_index : ℤ) :
    Except PyExn (ℚ × Option ℚ) :=
  if ¬ enable_tricaster then .error (.httpExc 400 "TriCaster module is disabled")
  else if ¬ strTruthy tricaster_host then
    .error (.httpExc 400 "TriCaster host not configured")
  else
    match ddrKeyAttempt (dict_fetch "ddr_timecode") ddr_index with
    | some r => .ok r
    | none =>
      match ddrKeyAttempt (dict_fetch "timecode") ddr_index with
      | some r => .ok r
      | none =>
        .error (.httpExc 404
          ("DDR" ++ intToStr ddr_index ++ " duration not found in TriCaster data"))

/-- Values sent in a Singular control PATCH payload (also the result type of
`coerce_value`). -/
inductive PVal where
  | num (q : ℚ)
  | int (z : ℤ)
  | str (s : String)
  | bool (b : Bool)
  | cmd (command : String)
  deriving DecidableEq

/-- One model node entry of the Singular control-app model. -/
structure SingModelNode where
  id : Option String

/-- One subcomposition inside a top-level composition. -/
structure SingSubComp where
  id : Option String
  model : List SingModelNode

/-- One top-level composition of the control-app model. -/
structure SingComp where
  id : Option String
  model : List SingModelNode
  subcompositions : List SingSubComp

/-- Record the owner for every requested field id found in a node list. -/
def buildFieldMapNodes (needed : List String) (owner : Option String)
    (nodes : List SingModelNode) (acc : List (String × Option String)) :
    List (String × Option String) :=
  nodes.foldl
    (fun m node =>
      match node.id with
      | some nid => if nid ∈ needed then assocSet m nid owner else m
      | none => m) acc

/-- Model of `_build_singular_field_map` (core.py 548-567): walk every
top-level composition's model list, then each subcomposition's model list. -/
def build_singular_field_map (needed : List String) (data : List SingComp) :
    List (String × Option String) :=
  data.foldl
    (fun m comp =>
      let m1 := buildFieldMapNodes needed comp.id comp.model m
      comp.subcompositions.foldl
        (fun m2 sub => buildFieldMapNodes needed sub.id sub.model m2) m1)
    []

/-- Field-map cache: `_singular_field_map_cache`, keyed by token and sorted
field ids. -/
def FieldMapCache : Type := List (String × List (String × Option String))

/-- Stable insertion of a string into a sorted list (an equal element is
placed after the existing ones, as Python `sorted` would keep it). -/
def insertSorted (a : String) : List String → List String
  | [] => [a]
  | b :: rest => if a < b then a :: b :: rest else b :: insertSorted a rest

/-- Python `sorted(...)` on strings (stable insertion sort). -/
def sortStrings (l : List String) : List String :=
  l.foldl (fun acc a => insertSorted a acc) []

/-- Cache key `f"{token}:{joined-sorted-field-ids}"`. -/
def fieldMapCacheKey (token : String) (field_ids : List String) : String :=
  token ++ ":" ++ String.intercalate "," (sortStrings field_ids)

/-- The two Singular-side remote endpoints, as a deterministic oracle. -/
structure SingWorld where
  model_fetch : String → Except PyExn (List SingComp)
  patch : String → List (String × List (String × PVal)) → Except PyExn Unit

/-- Model of `_ensure_singular_field_map` (core.py 570-575). -/
def ensure_singular_field_map (w : SingWorld) (cache : FieldMapCache) (token : String)
    (field_ids : List String) :
    Except PyExn (List (String × Option String) × FieldMapCache) :=
  let key := fieldMapCacheKey token field_ids
  match assocGet cache key with
  | some m => .ok (m, cache)
  | none =>
    match w.model_fetch token with
    | .error e => .error e
    | .ok data =>
      let m := build_singular_field_map field_ids data
      .ok (m, assocSet cache key m)

/-- Grouping step of `_patch_singular_fields`: group the value of every
resolvable field under its owning composition id; a field with no resolved
owner, or a falsy owner, is dropped. -/
def groupStep (field_map : List (String × Option String))
    (g : List (String × List (String × PVal))) (fv : String × PVal) :
    List (String × List (String × PVal)) :=
  match assocGet field_map fv.1 with
  | some (some sub_id) =>
    if sub_id = "" then g
    else
      match assocGet g sub_id with
      | some payload => assocSet g sub_id (assocSet payload fv.1 fv.2)
      | none => g ++ [(sub_id, [fv])]
  | _ => g

/-- The grouped body of a PATCH: fold every field value through `groupStep`. -/
def groupFieldValues (field_map : List (String × Option String))
    (field_values : List (String × PVal)) : List (String × List (String × PVal)) :=
  field_values.foldl (groupStep field_map) []

/-- Does the resolved map assign this field a truthy owner? -/
def ownerTruthy (field_map : List (String × Option String)) (fid : String) : Bool :=
  match assocGet field_map fid with
  | some (some s) => !(s == "")
  | _ => false

/-- One outbound Singular control PATCH request. -/
structure PatchCall where
  token : String
  body : List (String × List (String × PVal))

/-- Model of `_patch_singular_fields` (core.py 578-599).  Returns the
outcome, the updated cache, and the PATCH calls issued (the HTTP request is
issued before its status is known, so a transport failure still records the
call).  A field whose id is missing from the resolved map — or whose owner
is falsy — is silently dropped from the payload. -/
def patch_singular_fields (w : SingWorld) (cache : FieldMapCache) (token : String)
    (field_values : List (String × PVal)) :
    Except PyExn Unit × FieldMapCache × List PatchCall :=
  let field_ids := field_values.map (fun fv => fv.1)
  match ensure_singular_field_map w cache token field_ids with
  | .error e => (.error e, cache, [])
  | .ok (field_map, cache1) =>
    let grouped := groupFieldValues field_map field_values
    match w.patch token grouped with
    | .error e => (.error e, cache1, [⟨token, grouped⟩])
    | .ok _ => (.ok (), cache1, [⟨token, grouped⟩])

/-- Timer-field mapping of one DDR slot (`{"min": ..., "sec": ..., "timer": ...}`). -/
structure TimerFields where
  min : Option String
  sec : Option String
  timer : Option String

/-- The configuration fields consumed by the sync engine. -/
structure SyncConfig where
  enable_tricaster : Bool
  tricaster_host : Option String
  tricaster_singular_token : Option String
  tricaster_timer_fields : List (String × TimerFields)
  tricaster_round_mode : String

/-- Success payload of `sync_ddr_to_singular`. -/
structure SyncOk where
  ddr : ℤ
  duration_seconds : ℚ
  minutes : ℤ
  seconds : ℚ
  fps : Option ℚ
  round_mode : String

/-- Model of `sync_ddr_to_singular` (core.py 602-637).  Returns the outcome,
the updated field-map cache, and the PATCH calls issued. -/
def sync_ddr_to_singular (cfg : SyncConfig) (dict_fetch : String → Except PyExn DDRDoc)
    (w : SingWorld) (cache : FieldMapCache) (ddr_num : ℤ) :
    Except PyExn SyncOk × FieldMapCache × List PatchCall :=
  if ¬ strTruthy cfg.tricaster_singular_token then
    (.error (.httpExc 400 "No Singular token configured for timer sync"), cache, [])
  else
    let token := cfg.tricaster_singular_token.getD ""
    match assocGet cfg.tricaster_timer_fields (intToStr ddr_num) with
    | none =>
      (.error (.httpExc 400 ("No timer fields configured for DDR " ++ intToStr ddr_num)),
        cache, [])
    | some fields =>
      if ¬ strTruthy fields.min ∨ ¬ strTruthy fields.sec then
        (.error (.httpExc 400
          ("DDR " ++ intToStr ddr_num ++ " missing min or sec field configuration")),
          cache, [])
      else
        match get_ddr_duration_and_fps cfg.enable_tricaster cfg.tricaster_host
            dict_fetch ddr_num with
        | .error e => (.error e, cache, [])
        | .ok (duration, fps) =>
          let ms := split_minutes_seconds duration fps cfg.tricaster_round_mode
          let field_values :=
            assocSet (assocSet [] (fields.min.getD "") (PVal.int ms.1))
              (fields.sec.getD "") (PVal.num ms.2)
          match patch_singular_fields w cache token field_values with
          | (.error e, cache1, calls) => (.error e, cache1, calls)
          | (.ok _, cache1, calls) =>
            (.ok ⟨ddr_num, duration, ms.1, ms.2, fps, cfg.tricaster_round_mode⟩,
              cache1, calls)

/-- One slot of `sync_all_ddrs_to_singular`: a success is stored in the
results dict under key `ddr{n}` (`results[f"ddr{ddr_num}"] = result`, so a
later slot normalizing to the same number replaces the entry in place),
errors are appended `DDR {key}: {message}` strings. -/
def syncAllStep (cfg : SyncConfig) (dict_fetch : String → Except PyExn DDRDoc)
    (w : SingWorld) (acc : List (String × SyncOk) × List String × FieldMapCache)
    (kv : String × TimerFields) :
    List (String × SyncOk) × List String × FieldMapCache :=
  match pyInt? kv.1.data with
  | none =>
    (acc.1, acc.2.1 ++ ["DDR " ++ kv.1 ++ ": invalid literal for int with base 10"],
      acc.2.2)
  | some n =>
    match sync_ddr_to_singular cfg dict_fetch w acc.2.2 n with
    | (.ok r, cache1, _) => (assocSet acc.1 ("ddr" ++ intToStr n) r, acc.2.1, cache1)
    | (.error e, cache1, _) =>
      (acc.1, acc.2.1 ++ ["DDR " ++ kv.1 ++ ": " ++ pyExnStr e], cache1)

/-- Model of `sync_all_ddrs_to_singular` (core.py 640-657): every configured
slot is attempted in order inside its own `try/except`. -/
def sync_all_ddrs_to_singular (cfg : SyncConfig)
    (dict_fetch : String → Except PyExn DDRDoc) (w : SingWorld) (cache : FieldMapCache) :
    (Bool × List (String × SyncOk) × List String) × FieldMapCache :=
  let z := cfg.tricaster_timer_fields.foldl (syncAllStep cfg dict_fetch w) ([], [], cache)
  ((z.2.1.isEmpty, z.1, z.2.1), z.2.2)

/-- Model of the per-slot body of one `_auto_sync_loop` iteration (core.py
900-925).  Note the order in the source: `_last_ddr_values` is assigned the
freshly computed pair first, and only then is `sync_ddr_to_singular` called;
exceptions from the slot body are caught and leave the loop running. -/
def auto_sync_slot_step (cfg : SyncConfig) (dict_fetch : String → Except PyExn DDRDoc)
    (w : SingWorld) (state : List (String × (ℤ × ℚ))) (cache : FieldMapCache)
    (ddr_key : String) (fields : TimerFields) :
    List (String × (ℤ × ℚ)) × FieldMapCache × List PatchCall :=
  if ¬ strTruthy fields.min ∨ ¬ strTruthy fields.sec then (state, cache, [])
  else
    match pyInt? ddr_key.data with
    | none => (state, cache, [])
    | some ddr_num =>
      match get_ddr_duration_and_fps cfg.enable_tricaster cfg.tricaster_host
          dict_fetch ddr_num with
      | .error _ => (state, cache, [])
      | .ok (duration, fps) =>
        let ms := split_minutes_seconds duration fps cfg.tricaster_round_mode
        let current := (ms.1, pyRound2 ms.2)
        if assocGet state ddr_key = some current then (state, cache, [])
        else
          let state1 := assocSet state ddr_key current
          match sync_ddr_to_singular cfg dict_fetch w cache ddr_num with
          | (_, cache1, calls) => (state1, cache1, calls)

/-- One full iteration of the `_auto_sync_loop` polling body: skip everything
when host or token is missing, otherwise process every configured slot in
order, threading SyncState and the field-map cache. -/
def auto_sync_poll (cfg : SyncConfig) (dict_fetch : String → Except PyExn DDRDoc)
    (w : SingWorld) (state : List (String × (ℤ × ℚ))) (cache : FieldMapCache) :
    List (String × (ℤ × ℚ)) × FieldMapCache × List PatchCall :=
  if ¬ strTruthy cfg.tricaster_host ∨ ¬ strTruthy cfg.tricaster_singular_token then
    (state, cache, [])
  else
    cfg.tricaster_timer_fields.foldl
      (fun acc kv =>
        let r := auto_sync_slot_step cfg dict_fetch w acc.1 acc.2.1 kv.1 kv.2
        (r.1, r.2.1, acc.2.2 ++ r.2.2))
      (state, cache, [])

/-- A sequence of polls, one TriCaster fetch oracle per poll; returns the
final SyncState and cache, and the PATCH calls of each poll separately. -/
def auto_sync_polls (cfg : SyncConfig) (w : SingWorld) :
    List (String → Except PyExn DDRDoc) → List (String × (ℤ × ℚ)) → FieldMapCache →
    List (String × (ℤ × ℚ)) × FieldMapCache × List (List PatchCall)
  | [], state, cache => (state, cache, [])
  | f :: rest, state, cache =>
    let r := auto_sync_poll cfg f w state cache
    let rr := auto_sync_polls cfg w rest r.1 r.2.1
    (rr.1, rr.2.1, r.2.2 :: rr.2.2)

/-- ASCII slug characters: lowercase letters and digits. -/
def isSlugChar (c : Char) : Bool :=
  decide (('a' ≤ c ∧ c ≤ 'z') ∨ ('0' ≤ c ∧ c ≤ '9'))

/-- Collapse every maximal run of non-slug characters to a single hyphen
(the `re.sub(r"[^a-z0-9]+", "-", s)` step); the flag tracks whether the scan
is inside such a run. -/
def slugCollapseAux : Bool → List Char → List Char
  | _, [] => []
  | inRun, c :: rest =>
    if isSlugChar c then c :: slugCollapseAux false rest
    else if inRun then slugCollapseAux true rest
    else '-' :: slugCollapseAux true rest

/-- The regex-substitution step of `slugify`. -/
def slugCollapse (l : List Char) : List Char := slugCollapseAux false l

/-- Python `s.strip("-")`. -/
def stripHyphens (l : List Char) : List Char :=
  ((l.dropWhile (fun c => c == '-')).reverse.dropWhile (fun c => c == '-')).reverse

/-- Model of `slugify` (core.py 743-746). -/
def slugify (name : String) : String :=
  let s := stripHyphens (slugCollapse (pyLowerChars name.data))
  if s = [] then "item" else ⟨s⟩

/-- One field object inside a node's `model` list, abstracted to its id. -/
structure RegFieldObj where
  id : Option String
  deriving DecidableEq

/-- One registry entry (the dict stored in `REGISTRY[app][key]`). -/
structure RegEntry where
  id : String
  name : String
  fields : List (String × RegFieldObj)
  app_name : String
  token : String
  deriving DecidableEq

/-- A node of the Singular control-app model tree: the keys `_walk_nodes`
and `build_registry_for_app` read, plus the two children lists (the
`subcompositions` and `Subcompositions` keys; an absent or non-list key
behaves exactly like an empty list). -/
inductive SingTree where
  | node (id : Option String) (name : Option String) (model : Option (List RegFieldObj))
      (subs : List SingTree) (subsUpper : List SingTree)

mutual

/-- Pre-order flattening of one node (`_walk_nodes`, core.py 773-784). -/
def walkNodes : SingTree → List SingTree
  | .node i n m subs subsUpper =>
    .node i n m subs subsUpper :: (walkForest subs ++ walkForest subsUpper)

/-- Pre-order flattening of a list of nodes. -/
def walkForest : List SingTree → List SingTree
  | [] => []
  | t :: ts => walkNodes t ++ walkForest ts

end

/-- Forward registry: `REGISTRY[app_name][key]`. -/
def AppTable : Type := List (String × RegEntry)

/-- All apps' forward tables. -/
def Registry : Type := List (String × AppTable)

/-- Reverse index `ID_TO_KEY`: id to (app_name, key). -/
def IdToKey : Type := List (String × (String × String))

/-- Candidate slug with numeric suffix, as generated by the collision loop. -/
def slugCand (orig : String) (i : ℕ) : String := orig ++ "-" ++ natToStr i

/-- Stop condition of the collision `while` loop: the key is free, or is
already bound to the same remote id. -/
def slugFree (tbl : AppTable) (sid key : String) : Bool :=
  match assocGet tbl key with
  | none => true
  | some e => e.id == sid

/-- The suffix-searching loop, fueled; the fuel is never exhausted when the
table's keys are distinct (the candidates are pairwise distinct). -/
def findKeyGo (tbl : AppTable) (sid orig : String) : ℕ → ℕ → String
  | 0, i => slugCand orig i
  | fuel + 1, i =>
    if slugFree tbl sid (slugCand orig i) then slugCand orig i
    else findKeyGo tbl sid orig fuel (i + 1)

/-- The collision-resolution loop of `build_registry_for_app`
(core.py 811-816). -/
def findKey (tbl : AppTable) (sid orig : String) : String :=
  if slugFree tbl sid orig then orig else findKeyGo tbl sid orig tbl.length 2

/-- Processing of one flattened node (core.py 805-824): skip when the id is
falsy, the name is `None`, or the model is `None`; otherwise insert under the
collision-resolved key and update the reverse index. -/
def registryInsertNode (app_name token : String) (tbl : AppTable) (idk : IdToKey)
    (t : SingTree) : AppTable × IdToKey :=
  match t with
  | .node tid tname tmodel _ _ =>
    match tid, tname, tmodel with
    | some sid, some name, some model =>
      if sid = "" then (tbl, idk)
      else
        let key := findKey tbl sid (slugify name)
        let entry : RegEntry :=
          ⟨sid, name, model.foldl (fun fs f => assocSet fs (pyOrEmpty f.id) f) [],
            app_name, token⟩
        (assocSet tbl key entry, assocSet idk sid (app_name, key))
    | _, _, _ => (tbl, idk)

/-- Model of `build_registry_for_app` (core.py 787-825): clear the app's
table and purge its reverse entries first, then fetch; a fetch failure
returns with the freshly cleared (empty) table in place. -/
def build_registry_for_app (model_fetch : String → Except PyExn (List SingTree))
    (reg : Registry) (idk : IdToKey) (app_name token : String) :
    Registry × IdToKey × ℕ :=
  let hasApp := (assocGet reg app_name).isSome
  let idk0 := if hasApp then idk.filter (fun kv => kv.2.1 != app_name) else idk
  let reg0 := assocSet reg app_name []
  match model_fetch token with
  | .error _ => (reg0, idk0, 0)
  | .ok data =>
    let z := (walkForest data).foldl
      (fun (acc : AppTable × IdToKey) t => registryInsertNode app_name token acc.1 acc.2 t)
      ([], idk0)
    (assocSet reg0 app_name z.1, z.2, z.1.length)

/-- Model of `build_registry` (core.py 828-838): clear both maps, then build
every configured app in order. -/
def build_registry (model_fetch : String → Except PyExn (List SingTree))
    (singular_tokens : List (String × String)) : Registry × IdToKey :=
  singular_tokens.foldl
    (fun acc kv =>
      let r := build_registry_for_app model_fetch acc.1 acc.2 kv.1 kv.2
      (r.1, r.2.1))
    ([], [])

/-- Model of `kfind` (core.py 840-858): forward lookup first, then the
reverse index; a 404-class error when nothing matches. -/
def kfind (reg : Registry) (idk : IdToKey) (key_or_id : String)
    (app_name : Option String) : Except PyExn (String × String) :=
  match app_name with
  | some a =>
    if (match assocGet reg a with
        | some tbl => (assocGet tbl key_or_id).isSome
        | none => false) then .ok (a, key_or_id)
    else
      match assocGet idk key_or_id with
      | some p =>
        if p.1 = a then .ok p
        else .error (.httpExc 404 ("Subcomposition not found: " ++ key_or_id ++ " in app " ++ a))
      | none =>
        .error (.httpExc 404 ("Subcomposition not found: " ++ key_or_id ++ " in app " ++ a))
  | none =>
    match reg.find? (fun kv => (assocGet kv.2 key_or_id).isSome) with
    | some kv => .ok (kv.1, key_or_id)
    | none =>
      match assocGet idk key_or_id with
      | some p => .ok p
      | none => .error (.httpExc 404 ("Subcomposition not found: " ++ key_or_id))

/-- Model of `coerce_value` (core.py 861-874); `ftype` is
`field_meta.get("type")`. -/
def coerce_value (ftype : Option String) (value_str : String) (as_string : Bool) : PVal :=
  if as_string then .str value_str
  else
    let ft := pyLower (pyOrEmpty ftype)
    if ft = "number" ∨ ft = "range" ∨ ft = "slider" then
      if value_str.data.contains '.' then
        match pyFloat? value_str.data with
        | some q => .num q
        | none => .str value_str
      else
        match pyInt? value_str.data with
        | some z => .int z
        | none => .str value_str
    else if ft = "checkbox" ∨ ft = "toggle" ∨ ft = "bool" ∨ ft = "boolean" then
      .bool (decide (pyLower value_str = "1" ∨ pyLower value_str = "true"
        ∨ pyLower value_str = "yes" ∨ pyLower value_str = "on"))
    else .str value_str

/-- Concrete configuration used by the scenario theorems: one slot "1" with
minutes field `fMin`, seconds field `fSec`, no timer field, round mode off. -/
def fixtureCfg : SyncConfig :=
  ⟨true, some "h", some "tok", [("1", ⟨some "fMin", some "fSec", none⟩)], "none"⟩

/-- Concrete TriCaster oracle: every dictionary key parses to a document
whose attribute-indexed DDR 1 element carries the given duration string. -/
def fixtureDict (dur : String) : String → Except PyExn DDRDoc :=
  fun _ =>
    .ok ⟨fun i => if i = 1 then some ⟨some dur, none, none, none, none⟩ else none,
      fun _ => none⟩

/-- Concrete Singular oracle: one composition `subA` holding the given model
nodes, with a fixed patch outcome. -/
def fixtureSing (nodes : List SingModelNode) (patchResult : Except PyExn Unit) : SingWorld :=
  ⟨fun _ => .ok [⟨some "subA", nodes, []⟩], fun _ _ => patchResult⟩

/-- Unfolding equation for `split_minutes_seconds` in terms of the raw pair. -/
theorem split_minutes_seconds_eq (t : ℚ) (fps : Option ℚ) (rm : String) :
    split_minutes_seconds t fps rm =
      if 60 ≤ (splitRawMS t fps rm).2 then ((splitRawMS t fps rm).1 + 1, 0)
      else splitRawMS t fps rm := rfl

/-- C1: `_split_minutes_seconds` clamps negative input to zero, always
returns a seconds component strictly below 60, and when the epsilon-adjusted
2-decimal rounding of the raw seconds reaches 60.0 it carries exactly one
minute and resets the seconds to 0.0 (otherwise it returns the raw pair
unchanged). -/
theorem splitDuration_clamp_bound_carry (t : ℚ) (fps : Option ℚ) (rm : String) :
    (split_minutes_seconds t fps rm).2 < 60
    ∧ (t ≤ 0 → split_minutes_seconds t fps rm = split_minutes_seconds 0 fps rm)
    ∧ (60 ≤ (splitRawMS t fps rm).2 →
        split_minutes_seconds t fps rm = ((splitRawMS t fps rm).1 + 1, 0))
    ∧ (¬ 60 ≤ (splitRawMS t fps rm).2 →
        split_minutes_seconds t fps rm = splitRawMS t fps rm) := by
  refine ⟨?_, ?_, ?_, ?_⟩
  · rw [split_minutes_seconds_eq]
    split
    · norm_num
    · next h => exact lt_of_not_le h
  · intro ht
    have : max 0 t = max 0 (0 : ℚ) := by
      simp [max_eq_left ht]
    unfold split_minutes_seconds splitRawMS
    rw [this]
  · intro h
    rw [split_minutes_seconds_eq, if_pos h]
  · intro h
    rw [split_minutes_seconds_eq, if_neg h]

/-- Witness for C1 at concrete inputs: a negative duration is clamped, and
the spec vector 59.999 s (no framerate) carries into (1, 0.0). -/
theorem splitDuration_clamp_bound_carry_witness :
    split_minutes_seconds (-1) (some 25) "frames" = split_minutes_seconds 0 (some 25) "frames"
    ∧ split_minutes_seconds (59999 / 1000) none "seconds" = (1, 0) := by
  constructor
  · exact (splitDuration_clamp_bound_carry (-1) (some 25) "frames").2.1 (by norm_num)
  · have hraw : splitRawMS (59999 / 1000) none "seconds" = (0, 60) := by
      norm_num [splitRawMS, pyRound2, pyRound]
    have h60 : (60 : ℚ) ≤ (splitRawMS (59999 / 1000) none "seconds").2 := by
      rw [hraw]
    have := (splitDuration_clamp_bound_carry (59999 / 1000) none "seconds").2.2.1 h60
    rw [this, hraw]
    norm_num

/-- A Python split never returns an empty list of pieces. -/
theorem pySplitOn_ne_nil (sep : Char) (l : List Char) : pySplitOn sep l ≠ [] := by
  induction l with
  | nil => simp [pySplitOn]
  | cons c cs ih =>
    simp only [pySplitOn]
    split
    · simp
    · cases h : pySplitOn sep cs with
      | nil => exact absurd h ih
      | cons g gs => simp

/-- Splitting a string that does not contain the separator yields the whole
string as the single piece. -/
theorem pySplitOn_of_not_mem (sep : Char) (l : List Char) (h : sep ∉ l) :
    pySplitOn sep l = [l] := by
  induction l with
  | nil => rfl
  | cons c cs ih =>
    have hc : ¬ c = sep := by
      rintro rfl
      exact h (List.mem_cons_self _ _)
    have hcs : sep ∉ cs := fun hm => h (List.mem_cons_of_mem _ hm)
    simp only [pySplitOn, if_neg hc, ih hcs]

/-- Unfolding equation for `timecode_to_seconds` on a present string. -/
theorem timecode_to_seconds_some (s : String) :
    timecode_to_seconds (some s) =
      if pyStripChars s.data = [] then .ok none
      else if (pyStripChars s.data).contains ':' then
        timecodeColonParts (pySplitOn ':' (pyStripChars s.data))
      else .ok (pyFloat? (pyStripChars s.data)) := rfl

/-- The colon branch returns `None` for any piece count other than 2 or 3. -/
theorem timecodeColonParts_other (ps : List (List Char)) (h2 : ps.length ≠ 2)
    (h3 : ps.length ≠ 3) : timecodeColonParts ps = .ok none := by
  match ps with
  | [] => rfl
  | [a] => rfl
  | [a, b] => exact absurd rfl h2
  | [a, b, c] => exact absurd rfl h3
  | a :: b :: c :: d :: rest => rfl

/-- C2 (counterexample): a colon-shaped timecode with unparsable components
makes `_timecode_to_seconds` raise a `ValueError` instead of returning
absent. -/
theorem parseTimecode_colon_component_failure_raises :
    timecode_to_seconds (some "a:b") = .error (.valueError "invalid literal") := rfl

/-- C2 (amended): `_timecode_to_seconds` returns a seconds value exactly for
the accepted shapes: an empty (stripped) string yields absent; a string
without a colon is handed to `float()`, so a parsable bare numeric yields
its value and a bare-numeric parse failure yields absent; a colon string
with a piece count other than 2 or 3 yields absent; the 2- and 3-piece
colon shapes yield the combined seconds value when every component parses -
but a component parse failure inside those shapes raises an error (it is
not converted to absent). -/
theorem parseTimecode_shape_and_failure (s : String) :
    (pyStripChars s.data = [] → timecode_to_seconds (some s) = .ok none)
    ∧ (':' ∉ pyStripChars s.data → pyStripChars s.data ≠ [] →
        timecode_to_seconds (some s) = .ok (pyFloat? (pyStripChars s.data)))
    ∧ (':' ∈ pyStripChars s.data →
        (pySplitOn ':' (pyStripChars s.data)).length ≠ 2 →
        (pySplitOn ':' (pyStripChars s.data)).length ≠ 3 →
        timecode_to_seconds (some s) = .ok none)
    ∧ (∀ h m sec hv mv sv,
        pySplitOn ':' (pyStripChars s.data) = [h, m, sec] →
        pyInt? h = some hv → pyInt? m = some mv → pyFloat? sec = some sv →
        timecode_to_seconds (some s) = .ok (some ((hv : ℚ) * 3600 + (mv : ℚ) * 60 + sv)))
    ∧ (∀ m sec mv sv,
        pySplitOn ':' (pyStripChars s.data) = [m, sec] →
        pyInt? m = some mv → pyFloat? sec = some sv →
        timecode_to_seconds (some s) = .ok (some ((mv : ℚ) * 60 + sv)))
    ∧ ((∃ e, timecode_to_seconds (some s) = .error e) ↔
        (∃ h m sec, pySplitOn ':' (pyStripChars s.data) = [h, m, sec]
            ∧ (pyInt? h = none ∨ pyInt? m = none ∨ pyFloat? sec = none))
        ∨ (∃ m sec, pySplitOn ':' (pyStripChars s.data) = [m, sec]
            ∧ (pyInt? m = none ∨ pyFloat? sec = none))) := by
  by_cases hmem : ':' ∈ pyStripChars s.data
  · have hne : pyStripChars s.data ≠ [] := List.ne_nil_of_mem hmem
    have hcon : (pyStripChars s.data).contains ':' = true := List.elem_iff.mpr hmem
    have heq : timecode_to_seconds (some s) =
        timecodeColonParts (pySplitOn ':' (pyStripChars s.data)) := by
      rw [timecode_to_seconds_some, if_neg hne, if_pos hcon]
    refine ⟨fun he => absurd (he ▸ hmem) (List.not_mem_nil _),
      fun hn _ => absurd hmem hn, ?_, ?_, ?_, ?_⟩
    · intro _ h2 h3
      rw [heq, timecodeColonParts_other _ h2 h3]
    · intro h m sec hv mv sv hp hh hm hsec
      rw [heq, hp]
      simp [timecodeColonParts, hh, hm, hsec]
    · intro m sec mv sv hp hm hsec
      rw [heq, hp]
      simp [timecodeColonParts, hm, hsec]
    · rw [heq]
      rcases hp : pySplitOn ':' (pyStripChars s.data) with _ | ⟨a, _ | ⟨b, _ | ⟨c, _ | ⟨d, rest⟩⟩⟩⟩
      · simp [timecodeColonParts]
      · simp [timecodeColonParts]
      · constructor
        · intro hex
          rcases hex with ⟨e, he⟩
          rcases ha : pyInt? a with _ | av <;> rcases hb : pyFloat? b with _ | bv
          · exact Or.inr ⟨a, b, rfl, Or.inl ha⟩
          · exact Or.inr ⟨a, b, rfl, Or.inl ha⟩
          · exact Or.inr ⟨a, b, rfl, Or.inr hb⟩
          · rw [show timecodeColonParts [a, b] = .ok (some ((av : ℚ) * 60 + bv)) by
              simp [timecodeColonParts, ha, hb]] at he
            exact absurd he (by simp)
        · rintro (⟨h, m, sec, hshape, _⟩ | ⟨m, sec, hshape, hfail⟩)
          · exact absurd hshape (by simp)
          · simp only [List.cons.injEq, and_true] at hshape
            obtain ⟨rfl, rfl⟩ := hshape
            rcases hfail with hm | hsec
            · exact ⟨.valueError "invalid literal", by simp [timecodeColonParts, hm]⟩
            · rcases hmm : pyInt? a with _ | mv
              · exact ⟨.valueError "invalid literal", by simp [timecodeColonParts, hmm]⟩
              · exact ⟨.valueError "invalid literal",
                  by simp [timecodeColonParts, hmm, hsec]⟩
      · constructor
        · intro hex
          rcases hex with ⟨e, he⟩
          rcases ha : pyInt? a with _ | av
          · exact Or.inl ⟨a, b, c, rfl, Or.inl ha⟩
          · rcases hb : pyInt? b with _ | bv
            · exact Or.inl ⟨a, b, c, rfl, Or.inr (Or.inl hb)⟩
            · rcases hc : pyFloat? c with _ | cv
              · exact Or.inl ⟨a, b, c, rfl, Or.inr (Or.inr hc)⟩
              · rw [show timecodeColonParts [a, b, c] =
                    .ok (some ((av : ℚ) * 3600 + (bv : ℚ) * 60 + cv)) by
                  simp [timecodeColonParts, ha, hb, hc]] at he
                exact absurd he (by simp)
        · rintro (⟨h, m, sec, hshape, hfail⟩ | ⟨m, sec, hshape, _⟩)
          · simp only [List.cons.injEq, and_true] at hshape
            obtain ⟨rfl, rfl, rfl⟩ := hshape
            refine ⟨.valueError "invalid literal", ?_⟩
            rcases hh : pyInt? a with _ | hv
            · simp [timecodeColonParts, hh]
            · rcases hm : pyInt? b with _ | mv
              · simp [timecodeColonParts, hh, hm]
              · rcases hfail with hf | hf | hf
                · exact absurd hh (by rw [hf]; simp)
                · exact absurd hm (by rw [hf]; simp)
                · simp [timecodeColonParts, hh, hm, hf]
          · exact absurd hshape (by simp)
      · constructor
        · intro hex
          rcases hex with ⟨e, he⟩
          rw [show timecodeColonParts (a :: b :: c :: d :: rest) = .ok none from rfl] at he
          exact absurd he (by simp)
        · rintro (⟨h, m, sec, hshape, _⟩ | ⟨m, sec, hshape, _⟩) <;>
            exact absurd hshape (by simp)
  · have hsplit : pySplitOn ':' (pyStripChars s.data) = [pyStripChars s.data] :=
      pySplitOn_of_not_mem _ _ hmem
    have hcon : (pyStripChars s.data).contains ':' = false := by
      rw [List.contains_eq_any_beq]
      simp only [List.any_eq_false]
      intro x hx
      simp only [beq_iff_eq]
      rintro rfl
      exact hmem hx
    have hok : ∃ r, timecode_to_seconds (some s) = .ok r := by
      rw [timecode_to_seconds_some]
      by_cases he : pyStripChars s.data = []
      · rw [if_pos he]
        exact ⟨none, rfl⟩
      · rw [if_neg he]
        rw [hcon]
        exact ⟨pyFloat? (pyStripChars s.data), by simp⟩
    refine ⟨?_, ?_, fun hm => absurd hm hmem, ?_, ?_, ?_⟩
    · intro he
      rw [timecode_to_seconds_some, if_pos he]
    · intro _ hne
      rw [timecode_to_seconds_some, if_neg hne, hcon]
      simp
    · intro h m sec hv mv sv hp
      rw [hsplit] at hp
      exact absurd hp (by simp)
    · intro m sec mv sv hp
      rw [hsplit] at hp
      exact absurd hp (by simp)
    · constructor
      · intro hex
        rcases hex with ⟨e, he⟩
        rcases hok with ⟨r, hr⟩
        rw [hr] at he
        exact absurd he (by simp)
      · rintro (⟨h, m, sec, hshape, _⟩ | ⟨m, sec, hshape, _⟩) <;>
          · rw [hsplit] at hshape
            exact absurd hshape (by simp)

/-- Witness for C2 at a concrete accepted shape: `"1:30.5"` parses as
1 minute 30.5 seconds. -/
theorem parseTimecode_shape_and_failure_witness :
    timecode_to_seconds (some "1:30.5") =
      .ok (some ((1 : ℚ) * 60 + floatLitVal ⟨false, [3, 0], [5], 0⟩)) := by
  have hp : pySplitOn ':' (pyStripChars "1:30.5".data) = ["1".data, "30.5".data] := by decide
  have hm : pyInt? "1".data = some 1 := by decide
  have hf : pyFloat? "30.5".data = some (floatLitVal ⟨false, [3, 0], [5], 0⟩) := by
    have hparse : pyFloatParse? (pyStripChars "30.5".data) = some ⟨false, [3, 0], [5], 0⟩ := by
      decide
    simp [pyFloat?, hparse]
  exact (parseTimecode_shape_and_failure "1:30.5").2.2.2.2.1 "1".data "30.5".data 1 _ hp hm hf

/-- C10: `coerce_value` is total on every string input: for
checkbox/toggle/bool/boolean-typed fields exactly the case-insensitive
strings 1/true/yes/on coerce to true and every other string to false; for
number/range/slider-typed fields an unparsable numeric string is returned
unchanged; every other field type returns the input verbatim. -/
theorem coerceValue_total_characterization (ftype : Option String) (vs : String) :
    ((pyLower (pyOrEmpty ftype) = "checkbox" ∨ pyLower (pyOrEmpty ftype) = "toggle"
      ∨ pyLower (pyOrEmpty ftype) = "bool" ∨ pyLower (pyOrEmpty ftype) = "boolean") →
      (coerce_value ftype vs false = .bool true ↔
        (pyLower vs = "1" ∨ pyLower vs = "true" ∨ pyLower vs = "yes" ∨ pyLower vs = "on"))
      ∧ (coerce_value ftype vs false = .bool false ↔
        ¬ (pyLower vs = "1" ∨ pyLower vs = "true" ∨ pyLower vs = "yes" ∨ pyLower vs = "on")))
    ∧ ((pyLower (pyOrEmpty ftype) = "number" ∨ pyLower (pyOrEmpty ftype) = "range"
      ∨ pyLower (pyOrEmpty ftype) = "slider") →
      ((vs.data.contains '.' = true ∧ pyFloat? vs.data = none) ∨
        (vs.data.contains '.' = false ∧ pyInt? vs.data = none) →
        coerce_value ftype vs false = .str vs))
    ∧ (¬ (pyLower (pyOrEmpty ftype) = "number" ∨ pyLower (pyOrEmpty ftype) = "range"
        ∨ pyLower (pyOrEmpty ftype) = "slider" ∨ pyLower (pyOrEmpty ftype) = "checkbox"
        ∨ pyLower (pyOrEmpty ftype) = "toggle" ∨ pyLower (pyOrEmpty ftype) = "bool"
        ∨ pyLower (pyOrEmpty ftype) = "boolean") →
      coerce_value ftype vs false = .str vs) := by
  refine ⟨?_, ?_, ?_⟩
  · intro hb
    have hnum : ¬ (pyLower (pyOrEmpty ftype) = "number" ∨ pyLower (pyOrEmpty ftype) = "range"
        ∨ pyLower (pyOrEmpty ftype) = "slider") := by
      rcases hb with h | h | h | h <;> rw [h] <;> decide
    have hbool : (pyLower (pyOrEmpty ftype) = "checkbox" ∨ pyLower (pyOrEmpty ftype) = "toggle"
        ∨ pyLower (pyOrEmpty ftype) = "bool" ∨ pyLower (pyOrEmpty ftype) = "boolean") := hb
    have heq : coerce_value ftype vs false =
        .bool (decide (pyLower vs = "1" ∨ pyLower vs = "true"
          ∨ pyLower vs = "yes" ∨ pyLower vs = "on")) := by
      unfold coerce_value
      rw [if_neg (by simp : ¬ (false = true)), if_neg hnum, if_pos hbool]
    rw [heq]
    constructor
    · simp
    · simp
  · intro hn hfail
    have : coerce_value ftype vs false =
        (if vs.data.contains '.' then
          match pyFloat? vs.data with
          | some q => PVal.num q
          | none => PVal.str vs
        else
          match pyInt? vs.data with
          | some z => PVal.int z
          | none => PVal.str vs) := by
      unfold coerce_value
      rw [if_neg (by simp : ¬ (false = true)), if_pos hn]
    rw [this]
    rcases hfail with ⟨hc, hp⟩ | ⟨hc, hp⟩
    · rw [if_pos hc, hp]
    · rw [hc]
      simp only [Bool.false_eq_true, if_false]
      rw [hp]
  · intro hother
    have h1 : ¬ (pyLower (pyOrEmpty ftype) = "number" ∨ pyLower (pyOrEmpty ftype) = "range"
        ∨ pyLower (pyOrEmpty ftype) = "slider") := by
      intro h
      exact hother (by tauto)
    have h2 : ¬ (pyLower (pyOrEmpty ftype) = "checkbox" ∨ pyLower (pyOrEmpty ftype) = "toggle"
        ∨ pyLower (pyOrEmpty ftype) = "bool" ∨ pyLower (pyOrEmpty ftype) = "boolean") := by
      intro h
      exact hother (by tauto)
    unfold coerce_value
    rw [if_neg (by simp : ¬ (false = true)), if_neg h1, if_neg h2]

/-- Witness for C10 at concrete inputs: a case-insensitive checkbox truth
string, an unparsable number string, and an unrecognized field type. -/
theorem coerceValue_total_characterization_witness :
    coerce_value (some "Checkbox") "TRUE" false = .bool true
    ∧ coerce_value (some "number") "abc" false = .str "abc"
    ∧ coerce_value (some "timecontrol") "start" false = .str "start" := by
  refine ⟨?_, ?_, ?_⟩
  · exact ((coerceValue_total_characterization (some "Checkbox") "TRUE").1
      (by decide)).1.mpr (by decide)
  · exact (coerceValue_total_characterization (some "number") "abc").2.1
      (by decide) (Or.inr (by decide))
  · exact (coerceValue_total_characterization (some "timecontrol") "start").2.2
      (by decide)

/-- C5 (counterexample): with both dictionary fetches failing with the
transport-level `HTTPException(503, ...)`, `_get_ddr_duration_and_fps`
raises a 404 "duration not found" — the transport failure is swallowed and
reclassified as a not-found failure instead of being surfaced as a
RemoteUnavailable-class (503) error naming the failing remote. -/
theorem ddrDurationFetch_transport_failure_becomes_404 :
    get_ddr_duration_and_fps true (some "10.0.0.1")
      (fun _ => .error (.httpExc 503 "TriCaster request failed: connection refused")) 1
    = .error (.httpExc 404 "DDR1 duration not found in TriCaster data") := rfl

/-- C5 (amended): transport failures inside the dictionary-key loop are
caught per key (`except Exception: continue`); when both keys fail — for any
reason, including pure transport failure — the surfaced error is the 404
not-found naming the DDR slot.  Only the module-disabled / host-unset
preconditions surface 400-class errors before the loop. -/
theorem ddrDurationFetch_error_classification (en : Bool) (host : Option String)
    (df : String → Except PyExn DDRDoc) (i : ℤ) :
    (en = false →
      get_ddr_duration_and_fps en host df i =
        .error (.httpExc 400 "TriCaster module is disabled"))
    ∧ (en = true → strTruthy host = false →
      get_ddr_duration_and_fps en host df i =
        .error (.httpExc 400 "TriCaster host not configured"))
    ∧ (∀ e, df "ddr_timecode" = .error e → ddrKeyAttempt (df "ddr_timecode") i = none)
    ∧ (en = true → strTruthy host = true →
      ddrKeyAttempt (df "ddr_timecode") i = none →
      ddrKeyAttempt (df "timecode") i = none →
      get_ddr_duration_and_fps en host df i =
        .error (.httpExc 404 ("DDR" ++ intToStr i ++ " duration not found in TriCaster data"))) := by
  refine ⟨?_, ?_, ?_, ?_⟩
  · intro he
    subst he
    rfl
  · intro he hh
    subst he
    unfold get_ddr_duration_and_fps
    rw [if_neg (by simp), if_pos (by simp [hh])]
  · intro e he
    rw [he]
    rfl
  · intro he hh h1 h2
    subst he
    unfold get_ddr_duration_and_fps
    rw [if_neg (by simp), if_neg (by simp [hh]), h1, h2]

/-- Witness for C5's amended theorem at the concrete all-transport-failure
world. -/
theorem ddrDurationFetch_error_classification_witness :
    get_ddr_duration_and_fps true (some "10.0.0.1")
      (fun _ => .error (.httpExc 503 "TriCaster request failed: timeout")) 2
    = .error (.httpExc 404 ("DDR" ++ intToStr 2 ++ " duration not found in TriCaster data")) := by
  refine (ddrDurationFetch_error_classification true (some "10.0.0.1")
    (fun _ => .error (.httpExc 503 "TriCaster request failed: timeout")) 2).2.2.2
    rfl (by decide) ?_ ?_
  · exact (ddrDurationFetch_error_classification true (some "10.0.0.1")
      (fun _ => .error (.httpExc 503 "TriCaster request failed: timeout")) 2).2.2.1 _ rfl
  · exact (ddrDurationFetch_error_classification true (some "10.0.0.1")
      (fun _ => .error (.httpExc 503 "TriCaster request failed: timeout")) 2).2.2.1 _ rfl

/-- A successful association lookup is a membership. -/
theorem assocGet_mem {β : Type} :
    ∀ (l : List (String × β)) (k : String) (v : β), assocGet l k = some v → (k, v) ∈ l := by
  intro l
  induction l with
  | nil => intro k v h; exact absurd h (by simp [assocGet])
  | cons hd tl ih =>
    intro k v h
    obtain ⟨k0, v0⟩ := hd
    rw [assocGet] at h
    by_cases hk : k0 = k
    · rw [if_pos hk] at h
      subst hk
      have hv : v0 = v := by injection h
      rw [← hv]
      exact List.mem_cons_self _ _
    · rw [if_neg hk] at h
      exact List.mem_cons_of_mem _ (ih k v h)

/-- Membership after an association-list update comes from the new binding
or from the original list. -/
theorem mem_assocSet {β : Type} :
    ∀ (l : List (String × β)) (k : String) (v : β) (p : String × β),
      p ∈ assocSet l k v → p = (k, v) ∨ p ∈ l := by
  intro l
  induction l with
  | nil =>
    intro k v p hp
    left
    simpa [assocSet] using hp
  | cons hd tl ih =>
    intro k v p hp
    obtain ⟨k0, v0⟩ := hd
    rw [assocSet] at hp
    by_cases hk : k0 = k
    · rw [if_pos hk] at hp
      rcases List.mem_cons.mp hp with h | h
      · left
        rw [h, hk]
      · right
        exact List.mem_cons_of_mem _ h
    · rw [if_neg hk] at hp
      rcases List.mem_cons.mp hp with h | h
      · right
        rw [h]
        exact List.mem_cons_self _ _
      · rcases ih k v p h with h1 | h1
        · left
          exact h1
        · right
          exact List.mem_cons_of_mem _ h1

/-- Folding field values through `groupStep` only ever adds fields with a
truthy resolved owner. -/
theorem groupFold_only_resolved (m : List (String × Option String)) :
    ∀ (fvs : List (String × PVal)) (acc : List (String × List (String × PVal))),
      (∀ sub payload fv, (sub, payload) ∈ acc → fv ∈ payload → ownerTruthy m fv.1 = true) →
      ∀ sub payload fv, (sub, payload) ∈ fvs.foldl (groupStep m) acc → fv ∈ payload →
        ownerTruthy m fv.1 = true := by
  intro fvs
  induction fvs with
  | nil =>
    intro acc hacc sub payload fv hmem hfv
    exact hacc _ _ _ hmem hfv
  | cons hd tl ih =>
    intro acc hacc sub payload fv hmem hfv
    rw [List.foldl_cons] at hmem
    refine ih _ ?_ sub payload fv hmem hfv
    intro sub1 payload1 fv1 hmem1 hfv1
    unfold groupStep at hmem1
    rcases hget : assocGet m hd.1 with _ | o
    · rw [hget] at hmem1
      exact hacc _ _ _ hmem1 hfv1
    · rcases o with _ | sub_id
      · rw [hget] at hmem1
        exact hacc _ _ _ hmem1 hfv1
      · rw [hget] at hmem1
        dsimp only at hmem1
        by_cases hemp : sub_id = ""
        · rw [if_pos hemp] at hmem1
          exact hacc _ _ _ hmem1 hfv1
        · rw [if_neg hemp] at hmem1
          have howner : ownerTruthy m hd.1 = true := by
            unfold ownerTruthy
            rw [hget]
            simpa using hemp
          rcases hsub : assocGet acc sub_id with _ | payload0
          · rw [hsub] at hmem1
            rcases List.mem_append.mp hmem1 with h | h
            · exact hacc _ _ _ h hfv1
            · have : (sub1, payload1) = (sub_id, [hd]) := by simpa using h
              have hpay : payload1 = [hd] := congrArg Prod.snd this
              rw [hpay] at hfv1
              have : fv1 = hd := by simpa using hfv1
              rw [this]
              exact howner
          · rw [hsub] at hmem1
            rcases mem_assocSet _ _ _ _ hmem1 with h | h
            · have hpay : payload1 = assocSet payload0 hd.1 hd.2 := congrArg Prod.snd h
              rw [hpay] at hfv1
              rcases mem_assocSet _ _ _ _ hfv1 with h2 | h2
              · rw [h2]
                exact howner
              · exact hacc _ _ _ (assocGet_mem _ _ _ hsub) h2
            · exact hacc _ _ _ h hfv1

/-- C4 (amended): a configured field id that does not resolve to a truthy
owning composition is silently dropped from the outbound PATCH body; the
PATCH is still issued with the remaining fields, and the operation reports
success whenever the transport succeeds — no FieldNotResolved-class error is
produced. -/
theorem patchFields_silently_omits_unresolved :
    (∀ (m : List (String × Option String)) (fvs : List (String × PVal)) (sub : String)
        (payload : List (String × PVal)) (fv : String × PVal),
      (sub, payload) ∈ groupFieldValues m fvs → fv ∈ payload → ownerTruthy m fv.1 = true)
    ∧ (∀ (w : SingWorld) (cache : FieldMapCache) (token : String)
        (fvs : List (String × PVal)) (m : List (String × Option String))
        (c1 : FieldMapCache),
      ensure_singular_field_map w cache token (fvs.map (fun fv => fv.1)) = .ok (m, c1) →
      (patch_singular_fields w cache token fvs).2.2 =
        [⟨token, groupFieldValues m fvs⟩]
      ∧ (w.patch token (groupFieldValues m fvs) = .ok () →
          (patch_singular_fields w cache token fvs).1 = .ok ())) := by
  constructor
  · intro m fvs sub payload fv hmem hfv
    exact groupFold_only_resolved m fvs [] (by simp) sub payload fv hmem hfv
  · intro w cache token fvs m c1 hens
    simp only [patch_singular_fields]
    rw [hens]
    constructor
    · rcases hp : w.patch token (groupFieldValues m fvs) with e | u
      · simp [hp]
      · simp [hp]
    · intro hp
      dsimp only
      rw [hp]

/-- C4 (counterexample): with `fSec` configured but absent from the fetched
control-app model, `sync_ddr_to_singular` reports success and the single
outbound PATCH silently omits the seconds field — no FieldNotResolved-class
error is surfaced. -/
theorem syncOne_success_despite_unresolved_field :
    (sync_ddr_to_singular fixtureCfg (fixtureDict "0")
        (fixtureSing [⟨some "fMin"⟩] (.ok ())) [] 1).1 = .ok ⟨1, 0, 0, 0, none, "none"⟩
    ∧ (sync_ddr_to_singular fixtureCfg (fixtureDict "0")
        (fixtureSing [⟨some "fMin"⟩] (.ok ())) [] 1).2.2 =
      [⟨"tok", [("subA", [("fMin", PVal.int 0)])]⟩] := by
  have hdv : floatLitVal ⟨false, [0], [], 0⟩ = 0 := by
    norm_num [floatLitVal, natOfDigits, fracOfDigits]
  have hsplit : split_minutes_seconds 0 none "none" = (0, 0) := by
    norm_num [split_minutes_seconds, splitRawMS, pyRound2, pyRound]
  constructor
  · have h : (sync_ddr_to_singular fixtureCfg (fixtureDict "0")
        (fixtureSing [⟨some "fMin"⟩] (.ok ())) [] 1).1 =
        .ok ⟨1, floatLitVal ⟨false, [0], [], 0⟩,
          (split_minutes_seconds (floatLitVal ⟨false, [0], [], 0⟩) none "none").1,
          (split_minutes_seconds (floatLitVal ⟨false, [0], [], 0⟩) none "none").2,
          none, "none"⟩ := rfl
    rw [h, hdv, hsplit]
  · have h : (sync_ddr_to_singular fixtureCfg (fixtureDict "0")
        (fixtureSing [⟨some "fMin"⟩] (.ok ())) [] 1).2.2 =
        [⟨"tok", [("subA", [("fMin",
          PVal.int (split_minutes_seconds (floatLitVal ⟨false, [0], [], 0⟩) none "none").1)])]⟩] := rfl
    rw [h, hdv, hsplit]

/-- Witness for C4's amended theorem: the patch succeeds at a concrete input
with one resolvable field. -/
theorem patchFields_silently_omits_unresolved_witness :
    (patch_singular_fields (fixtureSing [⟨some "fMin"⟩] (.ok ())) [] "tok"
      [("fMin", PVal.int 0)]).1 = .ok () :=
  ((patchFields_silently_omits_unresolved).2 (fixtureSing [⟨some "fMin"⟩] (.ok ())) [] "tok"
    [("fMin", PVal.int 0)] _ _ rfl).2 rfl

/-- Semantics of one slot of one `_auto_sync_loop` iteration, split by the
branch taken: skip on missing field config or bad key, skip on fetch error,
skip on unchanged pair; on a changed pair the state is set to the new pair
first and the sync outcome only affects cache and patch log. -/
theorem auto_sync_slot_step_semantics (cfg : SyncConfig)
    (df : String → Except PyExn DDRDoc) (w : SingWorld)
    (state : List (String × (ℤ × ℚ))) (cache : FieldMapCache) (k : String)
    (fields : TimerFields) :
    (strTruthy fields.min = false ∨ strTruthy fields.sec = false →
      auto_sync_slot_step cfg df w state cache k fields = (state, cache, []))
    ∧ (strTruthy fields.min = true → strTruthy fields.sec = true →
        pyInt? k.data = none →
        auto_sync_slot_step cfg df w state cache k fields = (state, cache, []))
    ∧ (∀ n, strTruthy fields.min = true → strTruthy fields.sec = true →
        pyInt? k.data = some n →
        (∀ e, get_ddr_duration_and_fps cfg.enable_tricaster cfg.tricaster_host df n = .error e →
          auto_sync_slot_step cfg df w state cache k fields = (state, cache, []))
        ∧ (∀ d f m s,
            get_ddr_duration_and_fps cfg.enable_tricaster cfg.tricaster_host df n = .ok (d, f) →
            split_minutes_seconds d f cfg.tricaster_round_mode = (m, s) →
            (assocGet state k = some (m, pyRound2 s) →
              auto_sync_slot_step cfg df w state cache k fields = (state, cache, []))
            ∧ (assocGet state k ≠ some (m, pyRound2 s) →
              auto_sync_slot_step cfg df w state cache k fields =
                (assocSet state k (m, pyRound2 s),
                  (sync_ddr_to_singular cfg df w cache n).2.1,
                  (sync_ddr_to_singular cfg df w cache n).2.2)))) := by
  refine ⟨?_, ?_, ?_⟩
  · intro h
    unfold auto_sync_slot_step
    rw [if_pos]
    rcases h with h | h
    · left
      simp [h]
    · right
      simp [h]
  · intro hmin hsec hk
    unfold auto_sync_slot_step
    rw [if_neg (by simp [hmin, hsec]), hk]
  · intro n hmin hsec hk
    constructor
    · intro e he
      unfold auto_sync_slot_step
      rw [if_neg (by simp [hmin, hsec]), hk]
      dsimp only
      rw [he]
    · intro d f m s hfetch hms
      constructor
      · intro hsame
        unfold auto_sync_slot_step
        rw [if_neg (by simp [hmin, hsec]), hk]
        dsimp only
        rw [hfetch]
        dsimp only
        rw [hms]
        dsimp only
        rw [if_pos hsame]
      · intro hdiff
        unfold auto_sync_slot_step
        rw [if_neg (by simp [hmin, hsec]), hk]
        dsimp only
        rw [hfetch]
        dsimp only
        rw [hms]
        dsimp only
        rw [if_neg hdiff]

/-- C3 (amended): every failure before the change comparison — a missing
min or sec field configuration, an unparsable slot key, or a duration fetch
error — leaves the slot's SyncState entry untouched; but when the freshly
computed pair differs the loop records it in SyncState BEFORE invoking the
sync, so a failed sync attempt (e.g. a failed outbound patch) leaves the
new — never applied — pair in SyncState. -/
theorem syncState_updated_before_attempt (cfg : SyncConfig)
    (df : String → Except PyExn DDRDoc) (w : SingWorld)
    (state : List (String × (ℤ × ℚ))) (cache : FieldMapCache) (k : String)
    (fields : TimerFields) :
    (strTruthy fields.min = false ∨ strTruthy fields.sec = false →
      (auto_sync_slot_step cfg df w state cache k fields).1 = state)
    ∧ (pyInt? k.data = none →
        (auto_sync_slot_step cfg df w state cache k fields).1 = state)
    ∧ (∀ n, strTruthy fields.min = true → strTruthy fields.sec = true →
        pyInt? k.data = some n →
        (∀ e, get_ddr_duration_and_fps cfg.enable_tricaster cfg.tricaster_host df n =
            .error e →
          (auto_sync_slot_step cfg df w state cache k fields).1 = state)
        ∧ (∀ d f m s,
            get_ddr_duration_and_fps cfg.enable_tricaster cfg.tricaster_host df n = .ok (d, f) →
            split_minutes_seconds d f cfg.tricaster_round_mode = (m, s) →
            assocGet state k ≠ some (m, pyRound2 s) →
            ∀ e, (sync_ddr_to_singular cfg df w cache n).1 = .error e →
            (auto_sync_slot_step cfg df w state cache k fields).1 =
              assocSet state k (m, pyRound2 s))) := by
  refine ⟨?_, ?_, ?_⟩
  · intro h
    rw [(auto_sync_slot_step_semantics cfg df w state cache k fields).1 h]
  · intro hk
    by_cases hmin : strTruthy fields.min = true
    · by_cases hsec : strTruthy fields.sec = true
      · rw [(auto_sync_slot_step_semantics cfg df w state cache k fields).2.1 hmin hsec hk]
      · rw [(auto_sync_slot_step_semantics cfg df w state cache k fields).1
          (Or.inr (Bool.eq_false_iff.mpr hsec))]
    · rw [(auto_sync_slot_step_semantics cfg df w state cache k fields).1
        (Or.inl (Bool.eq_false_iff.mpr hmin))]
  · intro n hmin hsec hk
    constructor
    · intro e he
      rw [((auto_sync_slot_step_semantics cfg df w state cache k fields).2.2 n
        hmin hsec hk).1 e he]
    · intro d f m s hfetch hms hdiff e _
      rw [(((auto_sync_slot_step_semantics cfg df w state cache k fields).2.2 n
        hmin hsec hk).2 d f m s hfetch hms).2 hdiff]

/-- C3 (counterexample): with a failing outbound patch, the slot's SyncState
entry is nevertheless set to the freshly computed (2-decimal-rounded) pair,
even though the sync attempt at that very state returns an error — SyncState
ends up holding a pair that was never successfully applied. -/
theorem autoSync_failure_leaves_new_pair_in_state :
    (auto_sync_slot_step fixtureCfg (fixtureDict "10")
        (fixtureSing [⟨some "fMin"⟩, ⟨some "fSec"⟩] (.error (.requestError "patch failed")))
        [] [] "1" ⟨some "fMin", some "fSec", none⟩).1 = [("1", ((0 : ℤ), (10 : ℚ)))]
    ∧ (sync_ddr_to_singular fixtureCfg (fixtureDict "10")
        (fixtureSing [⟨some "fMin"⟩, ⟨some "fSec"⟩] (.error (.requestError "patch failed")))
        [] 1).1 = .error (.requestError "patch failed") := by
  have hdv : floatLitVal ⟨false, [1, 0], [], 0⟩ = 10 := by
    norm_num [floatLitVal, natOfDigits, fracOfDigits]
  have hsplit : split_minutes_seconds 10 none "none" = (0, 10) := by
    norm_num [split_minutes_seconds, splitRawMS, pyRound2, pyRound]
  constructor
  · have h : (auto_sync_slot_step fixtureCfg (fixtureDict "10")
        (fixtureSing [⟨some "fMin"⟩, ⟨some "fSec"⟩] (.error (.requestError "patch failed")))
        [] [] "1" ⟨some "fMin", some "fSec", none⟩).1 =
        [("1", ((split_minutes_seconds (floatLitVal ⟨false, [1, 0], [], 0⟩) none "none").1,
          pyRound2 (split_minutes_seconds (floatLitVal ⟨false, [1, 0], [], 0⟩) none "none").2))] :=
      rfl
    rw [h, hdv, hsplit]
    norm_num [pyRound2, pyRound]
  · rfl

/-- Witness for C3's amended theorem at the concrete failing-patch scenario. -/
theorem syncState_updated_before_attempt_witness :
    (auto_sync_slot_step fixtureCfg (fixtureDict "10")
        (fixtureSing [⟨some "fMin"⟩, ⟨some "fSec"⟩] (.error (.requestError "patch failed")))
        [] [] "1" ⟨some "fMin", some "fSec", none⟩).1 =
      assocSet [] "1" ((0 : ℤ), pyRound2 (10 : ℚ)) := by
  refine ((syncState_updated_before_attempt fixtureCfg (fixtureDict "10")
      (fixtureSing [⟨some "fMin"⟩, ⟨some "fSec"⟩] (.error (.requestError "patch failed")))
      [] [] "1" ⟨some "fMin", some "fSec", none⟩).2.2 1 rfl rfl rfl).2
    (floatLitVal ⟨false, [1, 0], [], 0⟩) none 0 10 rfl ?_ ?_ _ rfl
  · have hdv : floatLitVal ⟨false, [1, 0], [], 0⟩ = 10 := by
      norm_num [floatLitVal, natOfDigits, fracOfDigits]
    rw [hdv]
    norm_num [split_minutes_seconds, splitRawMS, pyRound2, pyRound]
  · simp [assocGet]

/-- When the control-app model fetch would succeed, `_patch_singular_fields`
always issues exactly one PATCH request (whatever its outcome). -/
theorem patchFields_one_call (w : SingWorld) (cache : FieldMapCache) (token : String)
    (fvs : List (String × PVal)) (comps : List SingComp)
    (hmodel : w.model_fetch token = .ok comps) :
    ∃ c1 grouped outc,
      patch_singular_fields w cache token fvs = (outc, c1, [⟨token, grouped⟩]) := by
  simp only [patch_singular_fields, ensure_singular_field_map]
  rcases hc : assocGet cache (fieldMapCacheKey token (fvs.map (fun fv => fv.1))) with _ | m
  · rw [hc, hmodel]
    dsimp only
    rcases hp : w.patch token
        (groupFieldValues (build_singular_field_map (fvs.map (fun fv => fv.1)) comps) fvs)
        with e | u
    · rw [hp]
      exact ⟨_, _, _, rfl⟩
    · rw [hp]
      exact ⟨_, _, _, rfl⟩
  · rw [hc]
    dsimp only
    rcases hp : w.patch token (groupFieldValues m fvs) with e | u
    · exact ⟨_, _, _, rfl⟩
    · exact ⟨_, _, _, rfl⟩

/-- When the sync path reaches the patch stage (token configured, slot
configured with truthy min/sec fields, duration fetched, model fetch
available), `sync_ddr_to_singular` issues exactly one PATCH request. -/
theorem syncOne_issues_one_patch (cfg : SyncConfig) (df : String → Except PyExn DDRDoc)
    (w : SingWorld) (cache : FieldMapCache) (n : ℤ) (fields2 : TimerFields)
    (comps : List SingComp) (d : ℚ) (f : Option ℚ)
    (htok : strTruthy cfg.tricaster_singular_token = true)
    (hlookup : assocGet cfg.tricaster_timer_fields (intToStr n) = some fields2)
    (hmin : strTruthy fields2.min = true) (hsec : strTruthy fields2.sec = true)
    (hfetch : get_ddr_duration_and_fps cfg.enable_tricaster cfg.tricaster_host df n = .ok (d, f))
    (hmodel : w.model_fetch (cfg.tricaster_singular_token.getD "") = .ok comps) :
    ((sync_ddr_to_singular cfg df w cache n).2.2).length = 1 := by
  unfold sync_ddr_to_singular
  rw [if_neg (by simp [htok])]
  dsimp only
  rw [hlookup]
  dsimp only
  rw [if_neg (by simp [hmin, hsec]), hfetch]
  dsimp only
  obtain ⟨c1, grouped, outc, hp⟩ := patchFields_one_call w cache
    (cfg.tricaster_singular_token.getD "")
    (assocSet (assocSet [] (fields2.min.getD "")
      (PVal.int (split_minutes_seconds d f cfg.tricaster_round_mode).1))
      (fields2.sec.getD "")
      (PVal.num (split_minutes_seconds d f cfg.tricaster_round_mode).2))
    comps hmodel
  rw [hp]
  rcases outc with e | u
  · rfl
  · rfl

/-- C6: in the background loop, once a slot's pair is computed, a sync —
and with it exactly one outbound PATCH — is issued iff the freshly computed
(minutes, 2-decimal-rounded seconds) pair differs from the SyncState entry;
and the duration sequence [10.0, 10.0, 12.5] over three polls starting from
empty SyncState yields exactly two patch attempts, at polls 1 and 3. -/
theorem autoSync_patch_iff_value_changed :
    (∀ (cfg : SyncConfig) (df : String → Except PyExn DDRDoc) (w : SingWorld)
        (state : List (String × (ℤ × ℚ))) (cache : FieldMapCache) (k : String)
        (fields fields2 : TimerFields) (n : ℤ) (d : ℚ) (f : Option ℚ) (m : ℤ) (s : ℚ)
        (comps : List SingComp),
      strTruthy fields.min = true → strTruthy fields.sec = true →
      pyInt? k.data = some n →
      get_ddr_duration_and_fps cfg.enable_tricaster cfg.tricaster_host df n = .ok (d, f) →
      split_minutes_seconds d f cfg.tricaster_round_mode = (m, s) →
      strTruthy cfg.tricaster_singular_token = true →
      assocGet cfg.tricaster_timer_fields (intToStr n) = some fields2 →
      strTruthy fields2.min = true → strTruthy fields2.sec = true →
      w.model_fetch (cfg.tricaster_singular_token.getD "") = .ok comps →
      ((auto_sync_slot_step cfg df w state cache k fields).2.2).length =
        (if assocGet state k = some (m, pyRound2 s) then 0 else 1))
    ∧ ((auto_sync_polls fixtureCfg (fixtureSing [⟨some "fMin"⟩, ⟨some "fSec"⟩] (.ok ()))
        [fixtureDict "10", fixtureDict "10", fixtureDict "12.5"] [] []).2.2).map
        List.length = [1, 0, 1] := by
  constructor
  · intro cfg df w state cache k fields fields2 n d f m s comps hmin hsec hk hfetch hms
      htok hlookup hmin2 hsec2 hmodel
    by_cases hsame : assocGet state k = some (m, pyRound2 s)
    · rw [if_pos hsame,
        (((auto_sync_slot_step_semantics cfg df w state cache k fields).2.2 n
          hmin hsec hk).2 d f m s hfetch hms).1 hsame]
      rfl
    · rw [if_neg hsame,
        (((auto_sync_slot_step_semantics cfg df w state cache k fields).2.2 n
          hmin hsec hk).2 d f m s hfetch hms).2 hsame]
      exact syncOne_issues_one_patch cfg df w cache n fields2 comps d f htok hlookup
        hmin2 hsec2 hfetch hmodel
  · have hdv10 : floatLitVal ⟨false, [1, 0], [], 0⟩ = 10 := by
      norm_num [floatLitVal, natOfDigits, fracOfDigits]
    have hdv125 : floatLitVal ⟨false, [1, 2], [5], 0⟩ = 25 / 2 := by
      norm_num [floatLitVal, natOfDigits, fracOfDigits]
    have hfetch10 : get_ddr_duration_and_fps fixtureCfg.enable_tricaster
        fixtureCfg.tricaster_host (fixtureDict "10") 1 = .ok (10, none) := by
      have h0 : get_ddr_duration_and_fps fixtureCfg.enable_tricaster
          fixtureCfg.tricaster_host (fixtureDict "10") 1 =
          .ok (floatLitVal ⟨false, [1, 0], [], 0⟩, none) := rfl
      rw [hdv10] at h0
      exact h0
    have hfetch125 : get_ddr_duration_and_fps fixtureCfg.enable_tricaster
        fixtureCfg.tricaster_host (fixtureDict "12.5") 1 = .ok (25 / 2, none) := by
      have h0 : get_ddr_duration_and_fps fixtureCfg.enable_tricaster
          fixtureCfg.tricaster_host (fixtureDict "12.5") 1 =
          .ok (floatLitVal ⟨false, [1, 2], [5], 0⟩, none) := rfl
      rw [hdv125] at h0
      exact h0
    have hms10 : split_minutes_seconds 10 none fixtureCfg.tricaster_round_mode = (0, 10) := by
      show split_minutes_seconds 10 none "none" = (0, 10)
      norm_num [split_minutes_seconds, splitRawMS, pyRound2, pyRound]
    have hms125 : split_minutes_seconds (25 / 2) none fixtureCfg.tricaster_round_mode =
        (0, 25 / 2) := by
      show split_minutes_seconds (25 / 2) none "none" = (0, 25 / 2)
      norm_num [split_minutes_seconds, splitRawMS, pyRound2, pyRound]
    have hround10 : pyRound2 (10 : ℚ) = 10 := by norm_num [pyRound2, pyRound]
    have hround125 : pyRound2 (25 / 2 : ℚ) = 25 / 2 := by norm_num [pyRound2, pyRound]
    have hstep1 : auto_sync_slot_step fixtureCfg (fixtureDict "10")
        (fixtureSing [⟨some "fMin"⟩, ⟨some "fSec"⟩] (.ok ())) [] [] "1"
        ⟨some "fMin", some "fSec", none⟩ =
        (assocSet [] "1" (0, pyRound2 10),
          (sync_ddr_to_singular fixtureCfg (fixtureDict "10")
            (fixtureSing [⟨some "fMin"⟩, ⟨some "fSec"⟩] (.ok ())) [] 1).2.1,
          (sync_ddr_to_singular fixtureCfg (fixtureDict "10")
            (fixtureSing [⟨some "fMin"⟩, ⟨some "fSec"⟩] (.ok ())) [] 1).2.2) :=
      (((auto_sync_slot_step_semantics fixtureCfg (fixtureDict "10")
        (fixtureSing [⟨some "fMin"⟩, ⟨some "fSec"⟩] (.ok ())) [] [] "1"
        ⟨some "fMin", some "fSec", none⟩).2.2 1 rfl rfl rfl).2 10 none 0 10
        hfetch10 hms10).2 (by simp [assocGet])
    have hpoll1 : auto_sync_poll fixtureCfg (fixtureDict "10")
        (fixtureSing [⟨some "fMin"⟩, ⟨some "fSec"⟩] (.ok ())) [] [] =
        ([("1", ((0 : ℤ), (10 : ℚ)))],
          (sync_ddr_to_singular fixtureCfg (fixtureDict "10")
            (fixtureSing [⟨some "fMin"⟩, ⟨some "fSec"⟩] (.ok ())) [] 1).2.1,
          (sync_ddr_to_singular fixtureCfg (fixtureDict "10")
            (fixtureSing [⟨some "fMin"⟩, ⟨some "fSec"⟩] (.ok ())) [] 1).2.2) := by
      simp only [auto_sync_poll]
      rw [if_neg (by decide)]
      rw [show fixtureCfg.tricaster_timer_fields =
        [("1", ⟨some "fMin", some "fSec", none⟩)] from rfl]
      simp only [List.foldl_cons, List.foldl_nil]
      rw [hstep1, hround10]
      simp [assocSet]
    have hstep2 : ∀ cache, auto_sync_slot_step fixtureCfg (fixtureDict "10")
        (fixtureSing [⟨some "fMin"⟩, ⟨some "fSec"⟩] (.ok ()))
        [("1", ((0 : ℤ), (10 : ℚ)))] cache "1" ⟨some "fMin", some "fSec", none⟩ =
        ([("1", ((0 : ℤ), (10 : ℚ)))], cache, []) := by
      intro cache
      refine (((auto_sync_slot_step_semantics fixtureCfg (fixtureDict "10")
        (fixtureSing [⟨some "fMin"⟩, ⟨some "fSec"⟩] (.ok ()))
        [("1", ((0 : ℤ), (10 : ℚ)))] cache "1"
        ⟨some "fMin", some "fSec", none⟩).2.2 1 rfl rfl rfl).2 10 none 0 10
        hfetch10 hms10).1 ?_
      rw [hround10]
      simp [assocGet]
    have hpoll2 : ∀ cache, auto_sync_poll fixtureCfg (fixtureDict "10")
        (fixtureSing [⟨some "fMin"⟩, ⟨some "fSec"⟩] (.ok ()))
        [("1", ((0 : ℤ), (10 : ℚ)))] cache =
        ([("1", ((0 : ℤ), (10 : ℚ)))], cache, []) := by
      intro cache
      simp only [auto_sync_poll]
      rw [if_neg (by decide)]
      rw [show fixtureCfg.tricaster_timer_fields =
        [("1", ⟨some "fMin", some "fSec", none⟩)] from rfl]
      simp only [List.foldl_cons, List.foldl_nil]
      rw [hstep2 cache]
      rfl
    have hstep3 : ∀ cache, auto_sync_slot_step fixtureCfg (fixtureDict "12.5")
        (fixtureSing [⟨some "fMin"⟩, ⟨some "fSec"⟩] (.ok ()))
        [("1", ((0 : ℤ), (10 : ℚ)))] cache "1" ⟨some "fMin", some "fSec", none⟩ =
        (assocSet [("1", ((0 : ℤ), (10 : ℚ)))] "1" (0, pyRound2 (25 / 2)),
          (sync_ddr_to_singular fixtureCfg (fixtureDict "12.5")
            (fixtureSing [⟨some "fMin"⟩, ⟨some "fSec"⟩] (.ok ())) cache 1).2.1,
          (sync_ddr_to_singular fixtureCfg (fixtureDict "12.5")
            (fixtureSing [⟨some "fMin"⟩, ⟨some "fSec"⟩] (.ok ())) cache 1).2.2) := by
      intro cache
      refine (((auto_sync_slot_step_semantics fixtureCfg (fixtureDict "12.5")
        (fixtureSing [⟨some "fMin"⟩, ⟨some "fSec"⟩] (.ok ()))
        [("1", ((0 : ℤ), (10 : ℚ)))] cache "1"
        ⟨some "fMin", some "fSec", none⟩).2.2 1 rfl rfl rfl).2 (25 / 2) none 0 (25 / 2)
        hfetch125 hms125).2 ?_
      rw [hround125]
      simp [assocGet]
      norm_num
    have hpoll3 : ∀ cache, auto_sync_poll fixtureCfg (fixtureDict "12.5")
        (fixtureSing [⟨some "fMin"⟩, ⟨some "fSec"⟩] (.ok ()))
        [("1", ((0 : ℤ), (10 : ℚ)))] cache =
        (assocSet [("1", ((0 : ℤ), (10 : ℚ)))] "1" (0, pyRound2 (25 / 2)),
          (sync_ddr_to_singular fixtureCfg (fixtureDict "12.5")
            (fixtureSing [⟨some "fMin"⟩, ⟨some "fSec"⟩] (.ok ())) cache 1).2.1,
          (sync_ddr_to_singular fixtureCfg (fixtureDict "12.5")
            (fixtureSing [⟨some "fMin"⟩, ⟨some "fSec"⟩] (.ok ())) cache 1).2.2) := by
      intro cache
      simp only [auto_sync_poll]
      rw [if_neg (by decide)]
      rw [show fixtureCfg.tricaster_timer_fields =
        [("1", ⟨some "fMin", some "fSec", none⟩)] from rfl]
      simp only [List.foldl_cons, List.foldl_nil]
      rw [hstep3 cache]
      rfl
    have hlen10 : ∀ cache, ((sync_ddr_to_singular fixtureCfg (fixtureDict "10")
        (fixtureSing [⟨some "fMin"⟩, ⟨some "fSec"⟩] (.ok ())) cache 1).2.2).length = 1 :=
      fun cache => syncOne_issues_one_patch fixtureCfg (fixtureDict "10")
        (fixtureSing [⟨some "fMin"⟩, ⟨some "fSec"⟩] (.ok ())) cache 1
        ⟨some "fMin", some "fSec", none⟩ [⟨some "subA", [⟨some "fMin"⟩, ⟨some "fSec"⟩], []⟩]
        10 none rfl rfl rfl rfl hfetch10 rfl
    have hlen125 : ∀ cache, ((sync_ddr_to_singular fixtureCfg (fixtureDict "12.5")
        (fixtureSing [⟨some "fMin"⟩, ⟨some "fSec"⟩] (.ok ())) cache 1).2.2).length = 1 :=
      fun cache => syncOne_issues_one_patch fixtureCfg (fixtureDict "12.5")
        (fixtureSing [⟨some "fMin"⟩, ⟨some "fSec"⟩] (.ok ())) cache 1
        ⟨some "fMin", some "fSec", none⟩ [⟨some "subA", [⟨some "fMin"⟩, ⟨some "fSec"⟩], []⟩]
        (25 / 2) none rfl rfl rfl rfl hfetch125 rfl
    simp only [auto_sync_polls]
    rw [hpoll1]
    dsimp only
    rw [hpoll2]
    dsimp only
    rw [hpoll3]
    dsimp only
    simp only [List.map_cons, List.map_nil, List.length_nil]
    rw [hlen10, hlen125]

/-- Witness for C6's per-slot iff at a concrete input (empty SyncState, so
exactly one patch attempt occurs). -/
theorem autoSync_patch_iff_value_changed_witness :
    ((auto_sync_slot_step fixtureCfg (fixtureDict "10")
        (fixtureSing [⟨some "fMin"⟩, ⟨some "fSec"⟩] (.ok ())) [] [] "1"
        ⟨some "fMin", some "fSec", none⟩).2.2).length =
      (if assocGet [] "1" = some ((0 : ℤ), pyRound2 (10 : ℚ)) then 0 else 1) := by
  have hdv10 : floatLitVal ⟨false, [1, 0], [], 0⟩ = 10 := by
    norm_num [floatLitVal, natOfDigits, fracOfDigits]
  have hfetch10 : get_ddr_duration_and_fps fixtureCfg.enable_tricaster
      fixtureCfg.tricaster_host (fixtureDict "10") 1 = .ok (10, none) := by
    have h0 : get_ddr_duration_and_fps fixtureCfg.enable_tricaster
        fixtureCfg.tricaster_host (fixtureDict "10") 1 =
        .ok (floatLitVal ⟨false, [1, 0], [], 0⟩, none) := rfl
    rw [hdv10] at h0
    exact h0
  have hms10 : split_minutes_seconds 10 none fixtureCfg.tricaster_round_mode = (0, 10) := by
    show split_minutes_seconds 10 none "none" = (0, 10)
    norm_num [split_minutes_seconds, splitRawMS, pyRound2, pyRound]
  exact autoSync_patch_iff_value_changed.1 fixtureCfg (fixtureDict "10")
    (fixtureSing [⟨some "fMin"⟩, ⟨some "fSec"⟩] (.ok ())) [] [] "1"
    ⟨some "fMin", some "fSec", none⟩ ⟨some "fMin", some "fSec", none⟩ 1 10 none 0 10
    [⟨some "subA", [⟨some "fMin"⟩, ⟨some "fSec"⟩], []⟩]
    rfl rfl rfl hfetch10 hms10 rfl rfl rfl rfl rfl

/-- Looking up the key just set yields the new value. -/
theorem assocGet_assocSet_self {β : Type} :
    ∀ (l : List (String × β)) (k : String) (v : β), assocGet (assocSet l k v) k = some v := by
  intro l
  induction l with
  | nil =>
    intro k v
    simp [assocSet, assocGet]
  | cons hd tl ih =>
    intro k v
    obtain ⟨k0, v0⟩ := hd
    rw [assocSet]
    by_cases hk : k0 = k
    · rw [if_pos hk, assocGet, if_pos hk]
    · rw [if_neg hk, assocGet, if_neg hk]
      exact ih k v

/-- Setting one key leaves other lookups unchanged. -/
theorem assocGet_assocSet_ne {β : Type} :
    ∀ (l : List (String × β)) (k : String) (v : β) (q : String), q ≠ k →
      assocGet (assocSet l k v) q = assocGet l q := by
  intro l
  induction l with
  | nil =>
    intro k v q hq
    simp only [assocSet, assocGet]
    rw [if_neg (fun h => hq h.symm)]
  | cons hd tl ih =>
    intro k v q hq
    obtain ⟨k0, v0⟩ := hd
    rw [assocSet]
    by_cases hk : k0 = k
    · rw [if_pos hk, assocGet, assocGet]
      have : ¬ k0 = q := fun h => hq (by rw [← h, hk])
      rw [if_neg this, if_neg this]
    · rw [if_neg hk, assocGet, assocGet]
      by_cases h0 : k0 = q
      · rw [if_pos h0, if_pos h0]
      · rw [if_neg h0, if_neg h0]
        exact ih k v q hq

/-- One `syncAllStep`: any error it adds is scoped to its own slot key,
existing errors and result keys persist, and the slot itself receives an
outcome — a scoped error, or a result stored under its `ddr{n}` key. -/
theorem syncAllStep_spec (cfg : SyncConfig) (df : String → Except PyExn DDRDoc)
    (w : SingWorld) (acc : List (String × SyncOk) × List String × FieldMapCache)
    (kv : String × TimerFields) :
    (∀ e ∈ (syncAllStep cfg df w acc kv).2.1,
        e ∈ acc.2.1 ∨ ∃ rest, e = "DDR " ++ kv.1 ++ ": " ++ rest)
    ∧ (∀ e ∈ acc.2.1, e ∈ (syncAllStep cfg df w acc kv).2.1)
    ∧ (∀ key, (assocGet acc.1 key).isSome →
        (assocGet (syncAllStep cfg df w acc kv).1 key).isSome)
    ∧ ((∃ rest, ("DDR " ++ kv.1 ++ ": " ++ rest) ∈ (syncAllStep cfg df w acc kv).2.1)
        ∨ ∃ n, pyInt? kv.1.data = some n ∧
            (assocGet (syncAllStep cfg df w acc kv).1 ("ddr" ++ intToStr n)).isSome) := by
  unfold syncAllStep
  rcases hk : pyInt? kv.1.data with _ | n
  · dsimp only
    refine ⟨?_, ?_, fun key h => h, ?_⟩
    · intro e he
      simp only [List.mem_append] at he
      rcases he with he | he
      · exact Or.inl he
      · refine Or.inr ⟨"invalid literal for int with base 10", ?_⟩
        have h1 : e = "DDR " ++ kv.1 ++ ": invalid literal for int with base 10" := by
          simpa using he
        rw [h1]
        apply String.ext
        simp [String.data_append]
    · intro e he
      exact List.mem_append_left _ he
    · refine Or.inl ⟨"invalid literal for int with base 10", ?_⟩
      have h1 : "DDR " ++ kv.1 ++ ": " ++ "invalid literal for int with base 10" =
          "DDR " ++ kv.1 ++ ": invalid literal for int with base 10" := by
        apply String.ext
        simp [String.data_append]
      rw [h1]
      exact List.mem_append_right _ (List.mem_singleton.mpr rfl)
  · dsimp only
    rcases hs : sync_ddr_to_singular cfg df w acc.2.2 n with ⟨outc, cache1, calls⟩
    rcases outc with e0 | r
    · dsimp only
      refine ⟨?_, ?_, fun key h => h, ?_⟩
      · intro e he
        simp only [List.mem_append] at he
        rcases he with he | he
        · exact Or.inl he
        · exact Or.inr ⟨pyExnStr e0, by simpa using he⟩
      · intro e he
        exact List.mem_append_left _ he
      · exact Or.inl ⟨pyExnStr e0, List.mem_append_right _ (List.mem_singleton.mpr rfl)⟩
    · dsimp only
      refine ⟨fun e he => Or.inl he, fun e he => he, ?_, ?_⟩
      · intro key h
        by_cases hkey : key = "ddr" ++ intToStr n
        · rw [hkey, assocGet_assocSet_self]
          simp
        · rw [assocGet_assocSet_ne _ _ _ _ hkey]
          exact h
      · refine Or.inr ⟨n, rfl, ?_⟩
        rw [assocGet_assocSet_self]
        simp

/-- Folding slots through `syncAllStep`: every new error is scoped to a
configured slot key, errors and result keys persist through the fold, and
every configured slot ends with an outcome — a scoped error, or a result
under its `ddr{n}` key. -/
theorem syncAllFold_spec (cfg : SyncConfig) (df : String → Except PyExn DDRDoc)
    (w : SingWorld) :
    ∀ (slots : List (String × TimerFields))
      (acc : List (String × SyncOk) × List String × FieldMapCache),
      (∀ e ∈ (slots.foldl (syncAllStep cfg df w) acc).2.1,
          e ∈ acc.2.1 ∨ ∃ k, (∃ fs, (k, fs) ∈ slots) ∧
            ∃ rest, e = "DDR " ++ k ++ ": " ++ rest)
      ∧ (∀ e ∈ acc.2.1, e ∈ (slots.foldl (syncAllStep cfg df w) acc).2.1)
      ∧ (∀ key, (assocGet acc.1 key).isSome →
          (assocGet (slots.foldl (syncAllStep cfg df w) acc).1 key).isSome)
      ∧ (∀ kv ∈ slots,
          (∃ rest, ("DDR " ++ kv.1 ++ ": " ++ rest) ∈
            (slots.foldl (syncAllStep cfg df w) acc).2.1)
          ∨ ∃ n, pyInt? kv.1.data = some n ∧
              (assocGet (slots.foldl (syncAllStep cfg df w) acc).1
                ("ddr" ++ intToStr n)).isSome) := by
  intro slots
  induction slots with
  | nil =>
    intro acc
    refine ⟨fun e he => Or.inl he, fun e he => he, fun key h => h, ?_⟩
    intro kv hkv
    exact absurd hkv (List.not_mem_nil _)
  | cons hd tl ih =>
    intro acc
    rw [List.foldl_cons]
    obtain ⟨s1, s2, s3, s4⟩ := syncAllStep_spec cfg df w acc hd
    obtain ⟨f1, f2, f3, f4⟩ := ih (syncAllStep cfg df w acc hd)
    refine ⟨?_, ?_, ?_, ?_⟩
    · intro e he
      rcases f1 e he with h | ⟨k, ⟨fs, hfs⟩, rest, hrest⟩
      · rcases s1 e h with h1 | ⟨rest, hrest⟩
        · exact Or.inl h1
        · exact Or.inr ⟨hd.1, ⟨hd.2, by simp⟩, rest, hrest⟩
      · exact Or.inr ⟨k, ⟨fs, List.mem_cons_of_mem _ hfs⟩, rest, hrest⟩
    · intro e he
      exact f2 e (s2 e he)
    · intro key h
      exact f3 key (s3 key h)
    · intro kv hkv
      rcases List.mem_cons.mp hkv with rfl | hkv
      · rcases s4 with ⟨rest, hrest⟩ | ⟨n, hn, hsome⟩
        · exact Or.inl ⟨rest, f2 _ hrest⟩
        · exact Or.inr ⟨n, hn, f3 _ hsome⟩
      · exact f4 kv hkv

/-- C9: `sync_all_ddrs_to_singular` attempts every configured slot
independently — every configured slot contributes an outcome (an error
scoped to its key, or a result stored in the results dict under its
`ddr{n}` key), a failing slot does not prevent the others, every error is
scoped (prefixed) to the slot that produced it, and the overall `ok` is
exactly "the error list is empty".  Concretely, with slot 1 fully
configured and slot 2 missing its seconds field, slot 1 still syncs
(result key `ddr1`), and exactly one scoped NotConfigured-style error is
reported for slot 2. -/
theorem syncAll_independent_and_scoped :
    (∀ (cfg : SyncConfig) (df : String → Except PyExn DDRDoc) (w : SingWorld)
        (cache : FieldMapCache),
      (sync_all_ddrs_to_singular cfg df w cache).1.1 =
        ((sync_all_ddrs_to_singular cfg df w cache).1.2.2).isEmpty
      ∧ (∀ kv ∈ cfg.tricaster_timer_fields,
          (∃ rest, ("DDR " ++ kv.1 ++ ": " ++ rest) ∈
            (sync_all_ddrs_to_singular cfg df w cache).1.2.2)
          ∨ ∃ n, pyInt? kv.1.data = some n ∧
              (assocGet (sync_all_ddrs_to_singular cfg df w cache).1.2.1
                ("ddr" ++ intToStr n)).isSome)
      ∧ ∀ e ∈ (sync_all_ddrs_to_singular cfg df w cache).1.2.2,
          ∃ k, (∃ fs, (k, fs) ∈ cfg.tricaster_timer_fields) ∧
            ∃ rest, e = "DDR " ++ k ++ ": " ++ rest)
    ∧ ((sync_all_ddrs_to_singular
        ⟨true, some "h", some "tok",
          [("1", ⟨some "fMin", some "fSec", none⟩), ("2", ⟨some "gMin", none, none⟩)],
          "none"⟩
        (fixtureDict "0") (fixtureSing [⟨some "fMin"⟩, ⟨some "fSec"⟩] (.ok ()))
        []).1.1 = false
      ∧ ((sync_all_ddrs_to_singular
          ⟨true, some "h", some "tok",
            [("1", ⟨some "fMin", some "fSec", none⟩), ("2", ⟨some "gMin", none, none⟩)],
            "none"⟩
          (fixtureDict "0") (fixtureSing [⟨some "fMin"⟩, ⟨some "fSec"⟩] (.ok ()))
          []).1.2.1).map (fun r => r.1) = ["ddr1"]
      ∧ (sync_all_ddrs_to_singular
          ⟨true, some "h", some "tok",
            [("1", ⟨some "fMin", some "fSec", none⟩), ("2", ⟨some "gMin", none, none⟩)],
            "none"⟩
          (fixtureDict "0") (fixtureSing [⟨some "fMin"⟩, ⟨some "fSec"⟩] (.ok ()))
          []).1.2.2 = ["DDR 2: DDR 2 missing min or sec field configuration"]) := by
  constructor
  · intro cfg df w cache
    refine ⟨rfl, ?_, ?_⟩
    · intro kv hkv
      exact (syncAllFold_spec cfg df w cfg.tricaster_timer_fields ([], [], cache)).2.2.2 kv hkv
    · intro e he
      have h := (syncAllFold_spec cfg df w cfg.tricaster_timer_fields ([], [], cache)).1 e he
      rcases h with h | h
      · exact absurd h (by simp)
      · exact h
  · exact ⟨rfl, rfl, rfl⟩

/-- Witness for C9's scoping clause: the concrete scenario's single error is
scoped to slot 2. -/
theorem syncAll_independent_and_scoped_witness :
    ∃ k, (∃ fs, (k, fs) ∈
        [("1", (⟨some "fMin", some "fSec", none⟩ : TimerFields)),
          ("2", ⟨some "gMin", none, none⟩)]) ∧
      ∃ rest, "DDR 2: DDR 2 missing min or sec field configuration" =
        "DDR " ++ k ++ ": " ++ rest := by
  have h := (syncAll_independent_and_scoped.1
    ⟨true, some "h", some "tok",
      [("1", ⟨some "fMin", some "fSec", none⟩), ("2", ⟨some "gMin", none, none⟩)],
      "none"⟩
    (fixtureDict "0") (fixtureSing [⟨some "fMin"⟩, ⟨some "fSec"⟩] (.ok ())) []).2.2
    "DDR 2: DDR 2 missing min or sec field configuration"
  exact h (by
    rw [syncAll_independent_and_scoped.2.2.2]
    exact List.mem_singleton.mpr rfl)

/-- Round trip: the decimal digits of `n` evaluate back to `n` (with enough
fuel). -/
theorem undigits_decDigitsAux : ∀ (fuel n : ℕ), n ≤ fuel → undigits (decDigitsAux fuel n) = n := by
  intro fuel
  induction fuel with
  | zero =>
    intro n hn
    interval_cases n
    rfl
  | succ f ih =>
    intro n hn
    match n with
    | 0 => rfl
    | m + 1 =>
      rw [decDigitsAux, undigits]
      rw [ih ((m + 1) / 10) (by
        have h1 : (m + 1) / 10 < m + 1 := Nat.div_lt_self (Nat.succ_pos m) (by norm_num)
        omega)]
      omega

/-- The decimal digits of a number determine it. -/
theorem decDigits_inj (m n : ℕ) (h : decDigits m = decDigits n) : m = n := by
  have hm : undigits (decDigits m) = m := undigits_decDigitsAux m m le_rfl
  have hn : undigits (decDigits n) = n := undigits_decDigitsAux n n le_rfl
  rw [← hm, ← hn, h]

/-- Every decimal digit produced is below 10. -/
theorem decDigitsAux_lt_ten : ∀ (fuel n d : ℕ), d ∈ decDigitsAux fuel n → d < 10 := by
  intro fuel
  induction fuel with
  | zero =>
    intro n d hd
    match n with
    | 0 => exact absurd hd (by simp [decDigitsAux])
    | m + 1 => exact absurd hd (by simp [decDigitsAux])
  | succ f ih =>
    intro n d hd
    match n with
    | 0 => exact absurd hd (by simp [decDigitsAux])
    | m + 1 =>
      rw [decDigitsAux] at hd
      rcases List.mem_cons.mp hd with h | h
      · rw [h]
        exact Nat.mod_lt _ (by norm_num)
      · exact ih _ _ h

/-- `digitChar` distinguishes digits. -/
theorem digitChar_inj_lt (a b : ℕ) (ha : a < 10) (hb : b < 10) (h : digitChar a = digitChar b) :
    a = b := by
  have : ∀ x < 10, ∀ y < 10, digitChar x = digitChar y → x = y := by decide
  exact this a ha b hb h

/-- Mapping `digitChar` over digit lists is injective. -/
theorem map_digitChar_inj : ∀ (l1 l2 : List ℕ), (∀ x ∈ l1, x < 10) → (∀ x ∈ l2, x < 10) →
    l1.map digitChar = l2.map digitChar → l1 = l2 := by
  intro l1
  induction l1 with
  | nil =>
    intro l2 _ _ h
    cases l2 with
    | nil => rfl
    | cons b bs => exact absurd h (by simp)
  | cons a as ih =>
    intro l2 h1 h2 h
    cases l2 with
    | nil => exact absurd h (by simp)
    | cons b bs =>
      simp only [List.map_cons, List.cons.injEq] at h
      have hab : a = b := digitChar_inj_lt a b (h1 a (by simp)) (h2 b (by simp)) h.1
      rw [hab, ih bs (fun x hx => h1 x (by simp [hx])) (fun x hx => h2 x (by simp [hx])) h.2]

/-- Python decimal rendering of naturals is injective. -/
theorem natToStr_inj (m n : ℕ) (h : natToStr m = natToStr n) : m = n := by
  unfold natToStr at h
  by_cases hm : m = 0 <;> by_cases hn : n = 0
  · rw [hm, hn]
  · rw [if_pos hm, if_neg hn] at h
    have hd : "0".data = ((decDigits n).map digitChar).reverse := congrArg String.data h
    have h1 : (decDigits n).map digitChar = [digitChar 0] := by
      have h2 := congrArg List.reverse hd
      simp only [List.reverse_reverse] at h2
      rw [← h2]
      decide
    have hlist : decDigits n = [0] := map_digitChar_inj _ [0]
      (fun x hx => decDigitsAux_lt_ten _ _ _ hx) (by norm_num) h1
    have hr : undigits (decDigits n) = n := undigits_decDigitsAux n n le_rfl
    rw [hlist] at hr
    have : (0 : ℕ) = n := by simpa [undigits] using hr
    exact absurd this.symm hn
  · rw [if_neg hm, if_pos hn] at h
    have hd : ((decDigits m).map digitChar).reverse = "0".data :=
      congrArg String.data h
    have h1 : (decDigits m).map digitChar = [digitChar 0] := by
      have h2 := congrArg List.reverse hd
      simp only [List.reverse_reverse] at h2
      rw [h2]
      decide
    have hlist : decDigits m = [0] := map_digitChar_inj _ [0]
      (fun x hx => decDigitsAux_lt_ten _ _ _ hx) (by norm_num) h1
    have hr : undigits (decDigits m) = m := undigits_decDigitsAux m m le_rfl
    rw [hlist] at hr
    have : (0 : ℕ) = m := by simpa [undigits] using hr
    exact absurd this.symm hm
  · rw [if_neg hm, if_neg hn] at h
    have hd : ((decDigits m).map digitChar).reverse = ((decDigits n).map digitChar).reverse :=
      congrArg String.data h
    have h1 : (decDigits m).map digitChar = (decDigits n).map digitChar := by
      have h2 := congrArg List.reverse hd
      simpa using h2
    exact decDigits_inj m n (map_digitChar_inj _ _
      (fun x hx => decDigitsAux_lt_ten _ _ _ hx)
      (fun x hx => decDigitsAux_lt_ten _ _ _ hx) h1)

/-- The numeric-suffix slug candidates are pairwise distinct. -/
theorem slugCand_inj (orig : String) (i j : ℕ) (h : slugCand orig i = slugCand orig j) :
    i = j := by
  unfold slugCand at h
  have hd : (orig.data ++ "-".data) ++ (natToStr i).data =
      (orig.data ++ "-".data) ++ (natToStr j).data := congrArg String.data h
  have h1 : (natToStr i).data = (natToStr j).data := List.append_cancel_left hd
  exact natToStr_inj i j (String.ext h1)

/-- A suffixed candidate never equals the base slug. -/
theorem slugCand_ne_base (orig : String) (i : ℕ) : slugCand orig i ≠ orig := by
  intro h
  have hd : (orig.data ++ "-".data) ++ (natToStr i).data = orig.data :=
    congrArg String.data h
  have hlen := congrArg List.length hd
  have h1 : "-".data = ['-'] := rfl
  rw [h1] at hlen
  simp [List.length_append] at hlen

/-- Keys after an update: unchanged when the key existed, appended
otherwise. -/
theorem keys_assocSet {β : Type} :
    ∀ (l : List (String × β)) (k : String) (v : β),
      (assocSet l k v).map Prod.fst =
        if k ∈ l.map Prod.fst then l.map Prod.fst else l.map Prod.fst ++ [k] := by
  intro l
  induction l with
  | nil =>
    intro k v
    simp [assocSet]
  | cons hd tl ih =>
    intro k v
    obtain ⟨k0, v0⟩ := hd
    rw [assocSet]
    by_cases hk : k0 = k
    · rw [if_pos hk]
      have : k ∈ ((k0, v0) :: tl).map Prod.fst := by
        simp [hk.symm]
      rw [if_pos this]
      simp
    · rw [if_neg hk]
      by_cases hmem : k ∈ tl.map Prod.fst
      · have : k ∈ ((k0, v0) :: tl).map Prod.fst := by simp [hmem]
        rw [if_pos this]
        simp only [List.map_cons]
        rw [ih k v, if_pos hmem]
      · have : ¬ k ∈ ((k0, v0) :: tl).map Prod.fst := by
          simp only [List.map_cons, List.mem_cons]
          rintro (h | h)
          · exact hk (by rw [h])
          · exact hmem h
        rw [if_neg this]
        simp only [List.map_cons, List.cons_append]
        rw [ih k v, if_neg hmem]

/-- An update preserves distinctness of keys. -/
theorem nodup_keys_assocSet {β : Type} (l : List (String × β)) (k : String) (v : β)
    (h : (l.map Prod.fst).Nodup) : ((assocSet l k v).map Prod.fst).Nodup := by
  rw [keys_assocSet]
  by_cases hmem : k ∈ l.map Prod.fst
  · rw [if_pos hmem]
    exact h
  · rw [if_neg hmem]
    simp [List.nodup_append, h, hmem]

/-- A blocked slug candidate is an existing key. -/
theorem slugFree_false_mem (tbl : AppTable) (sid key : String)
    (h : slugFree tbl sid key = false) : key ∈ tbl.map Prod.fst := by
  unfold slugFree at h
  rcases hg : assocGet tbl key with _ | e
  · rw [hg] at h
    simp at h
  · exact List.mem_map.mpr ⟨(key, e), assocGet_mem _ _ _ hg, rfl⟩

/-- The fueled collision loop finds a usable key before its fuel runs out:
were every candidate blocked, the base slug plus the distinct suffixed
candidates would be more distinct keys than the table holds. -/
theorem findKeyGo_good (tbl : AppTable) (sid orig : String)
    (horig : slugFree tbl sid orig = false) :
    ∀ (fuel i : ℕ), 2 ≤ i → i + fuel = 2 + tbl.length →
      (∀ j, 2 ≤ j → j < i → slugFree tbl sid (slugCand orig j) = false) →
      slugFree tbl sid (findKeyGo tbl sid orig fuel i) = true := by
  intro fuel
  induction fuel with
  | zero =>
    intro i hi2 hsum hbad
    exfalso
    have hsub : (orig :: (List.range' 2 tbl.length).map (slugCand orig)) ⊆
        tbl.map Prod.fst := by
      intro x hx
      rcases List.mem_cons.mp hx with h | h
      · rw [h]
        exact slugFree_false_mem tbl sid orig horig
      · rcases List.mem_map.mp h with ⟨j, hj, hcand⟩
        have hj2 := (List.mem_range'_1.mp hj).1
        have hji : j < i := by
          have := (List.mem_range'_1.mp hj).2
          omega
        rw [← hcand]
        exact slugFree_false_mem tbl sid _ (hbad j hj2 hji)
    have hnodupL : (orig :: (List.range' 2 tbl.length).map (slugCand orig)).Nodup := by
      refine List.nodup_cons.mpr ⟨?_, ?_⟩
      · intro hmem
        rcases List.mem_map.mp hmem with ⟨j, _, hcand⟩
        exact slugCand_ne_base orig j hcand
      · exact (List.nodup_range' _ _).map (fun a b hab => slugCand_inj orig a b hab)
    have hle := (List.subperm_of_subset hnodupL hsub).length_le
    simp [List.length_range'] at hle
  | succ f ih =>
    intro i hi2 hsum hbad
    by_cases hfree : slugFree tbl sid (slugCand orig i) = true
    · rw [findKeyGo, if_pos hfree]
      exact hfree
    · rw [findKeyGo, if_neg hfree]
      refine ih (i + 1) (by omega) (by omega) ?_
      intro j hj2 hji
      by_cases hj : j < i
      · exact hbad j hj2 hj
      · have : j = i := by omega
        rw [this]
        simpa using hfree

/-- The collision loop of `build_registry_for_app` always stops at a key
that is free or already bound to the same id. -/
theorem findKey_good (tbl : AppTable) (sid orig : String) :
    slugFree tbl sid (findKey tbl sid orig) = true := by
  unfold findKey
  by_cases h : slugFree tbl sid orig = true
  · rw [if_pos h]
    exact h
  · rw [if_neg h]
    exact findKeyGo_good tbl sid orig (by simpa using h) tbl.length 2 le_rfl
      (by omega) (fun j hj2 hji => absurd hji (by omega))

/-- With distinct keys, membership determines the lookup. -/
theorem assocGet_of_mem_nodup {β : Type} :
    ∀ (l : List (String × β)) (k : String) (v : β),
      (l.map Prod.fst).Nodup → (k, v) ∈ l → assocGet l k = some v := by
  intro l
  induction l with
  | nil =>
    intro k v _ hm
    exact absurd hm (by simp)
  | cons hd tl ih =>
    intro k v hnd hm
    obtain ⟨k0, v0⟩ := hd
    simp only [List.map_cons, List.nodup_cons] at hnd
    rcases List.mem_cons.mp hm with h | h
    · obtain ⟨h1, h2⟩ := Prod.mk.injEq .. ▸ h
      rw [assocGet, if_pos h1.symm, h2]
    · rw [assocGet]
      by_cases hk : k0 = k
      · exfalso
        apply hnd.1
        rw [hk]
        exact List.mem_map.mpr ⟨(k, v), h, rfl⟩
      · rw [if_neg hk]
        exact ih k v hnd.2 h

/-- A lookup that succeeds on a filtered list succeeds identically on the
original list, when keys are distinct. -/
theorem assocGet_filter {β : Type} (l : List (String × β)) (p : String × β → Bool)
    (k : String) (v : β) (hnd : (l.map Prod.fst).Nodup)
    (h : assocGet (l.filter p) k = some v) : assocGet l k = some v := by
  have hm : (k, v) ∈ l.filter p := assocGet_mem _ _ _ h
  exact assocGet_of_mem_nodup l k v hnd (List.mem_of_mem_filter hm)

/-- Filtering preserves distinctness of keys. -/
theorem nodup_keys_filter {β : Type} (l : List (String × β)) (p : String × β → Bool)
    (hnd : (l.map Prod.fst).Nodup) : ((l.filter p).map Prod.fst).Nodup :=
  ((List.filter_sublist l).map Prod.fst).nodup hnd

/-- One registry insertion preserves the table/reverse-index invariants:
distinct slugs, every app-scoped reverse entry points at a matching table
entry, and reverse entries of other apps are untouched. -/
theorem registryInsertNode_inv (app token : String) (tbl : AppTable) (idk : IdToKey)
    (t : SingTree) (hnd : (tbl.map Prod.fst).Nodup) (hndk : (idk.map Prod.fst).Nodup)
    (hinv : ∀ sid a k, assocGet idk sid = some (a, k) → a = app →
      ∃ e, assocGet tbl k = some e ∧ e.id = sid) :
    ((registryInsertNode app token tbl idk t).1.map Prod.fst).Nodup
    ∧ (((registryInsertNode app token tbl idk t).2.map Prod.fst).Nodup)
    ∧ (∀ sid a k, assocGet (registryInsertNode app token tbl idk t).2 sid = some (a, k) →
        a = app →
        ∃ e, assocGet (registryInsertNode app token tbl idk t).1 k = some e ∧ e.id = sid)
    ∧ (∀ sid a k, assocGet (registryInsertNode app token tbl idk t).2 sid = some (a, k) →
        a ≠ app → assocGet idk sid = some (a, k)) := by
  obtain ⟨tid, tname, tmodel, subs, subsU⟩ := t
  rcases tid with _ | sid
  · exact ⟨hnd, hndk, fun sid a k h ha => hinv sid a k h ha, fun _ _ _ h _ => h⟩
  rcases tname with _ | name
  · exact ⟨hnd, hndk, fun sid' a k h ha => hinv sid' a k h ha, fun _ _ _ h _ => h⟩
  rcases tmodel with _ | model
  · exact ⟨hnd, hndk, fun sid' a k h ha => hinv sid' a k h ha, fun _ _ _ h _ => h⟩
  by_cases hempty : sid = ""
  · simp only [registryInsertNode, if_pos hempty]
    exact ⟨hnd, hndk, fun sid' a k h ha => hinv sid' a k h ha, fun _ _ _ h _ => h⟩
  · simp only [registryInsertNode, if_neg hempty]
    have hgood := findKey_good tbl sid (slugify name)
    refine ⟨nodup_keys_assocSet _ _ _ hnd, nodup_keys_assocSet _ _ _ hndk, ?_, ?_⟩
    · intro sid' a k hget ha
      by_cases hsid : sid' = sid
      · subst hsid
        rw [assocGet_assocSet_self] at hget
        have hk : k = findKey tbl sid' (slugify name) := by
          injection hget with h1
          exact (congrArg Prod.snd h1).symm
        rw [hk]
        exact ⟨_, assocGet_assocSet_self _ _ _, rfl⟩
      · rw [assocGet_assocSet_ne _ _ _ _ hsid] at hget
        obtain ⟨e, he, hid⟩ := hinv sid' a k hget ha
        by_cases hk : k = findKey tbl sid (slugify name)
        · exfalso
          rw [hk] at he
          unfold slugFree at hgood
          rw [he] at hgood
          have : e.id = sid := by simpa using hgood
          exact hsid (by rw [← hid, this])
        · rw [assocGet_assocSet_ne _ _ _ _ hk]
          exact ⟨e, he, hid⟩
    · intro sid' a k hget ha
      by_cases hsid : sid' = sid
      · subst hsid
        rw [assocGet_assocSet_self] at hget
        exfalso
        apply ha
        injection hget with h1
        exact (congrArg Prod.fst h1).symm
      · rw [assocGet_assocSet_ne _ _ _ _ hsid] at hget
        exact hget

/-- The whole insertion fold preserves the table/reverse-index invariants. -/
theorem registryFold_inv (app token : String) :
    ∀ (ts : List SingTree) (tbl : AppTable) (idk : IdToKey),
      (tbl.map Prod.fst).Nodup → (idk.map Prod.fst).Nodup →
      (∀ sid a k, assocGet idk sid = some (a, k) → a = app →
        ∃ e, assocGet tbl k = some e ∧ e.id = sid) →
      (((ts.foldl (fun (acc : AppTable × IdToKey) t =>
          registryInsertNode app token acc.1 acc.2 t) (tbl, idk)).1.map Prod.fst).Nodup)
      ∧ (((ts.foldl (fun (acc : AppTable × IdToKey) t =>
          registryInsertNode app token acc.1 acc.2 t) (tbl, idk)).2.map Prod.fst).Nodup)
      ∧ (∀ sid a k, assocGet (ts.foldl (fun (acc : AppTable × IdToKey) t =>
          registryInsertNode app token acc.1 acc.2 t) (tbl, idk)).2 sid = some (a, k) →
          a = app →
          ∃ e, assocGet (ts.foldl (fun (acc : AppTable × IdToKey) t =>
            registryInsertNode app token acc.1 acc.2 t) (tbl, idk)).1 k = some e ∧ e.id = sid)
      ∧ (∀ sid a k, assocGet (ts.foldl (fun (acc : AppTable × IdToKey) t =>
          registryInsertNode app token acc.1 acc.2 t) (tbl, idk)).2 sid = some (a, k) →
          a ≠ app → assocGet idk sid = some (a, k)) := by
  intro ts
  induction ts with
  | nil =>
    intro tbl idk hnd hndk hinv
    exact ⟨hnd, hndk, fun sid a k h ha => hinv sid a k h ha, fun _ _ _ h _ => h⟩
  | cons t ts ih =>
    intro tbl idk hnd hndk hinv
    simp only [List.foldl_cons]
    obtain ⟨h1, h2, h3, h4⟩ := registryInsertNode_inv app token tbl idk t hnd hndk hinv
    obtain ⟨g1, g2, g3, g4⟩ :=
      ih (registryInsertNode app token tbl idk t).1
        (registryInsertNode app token tbl idk t).2 h1 h2 h3
    exact ⟨g1, g2, g3, fun sid a k h ha => h4 sid a k (g4 sid a k h ha) ha⟩

/-- Rebuilding one app preserves the global registry invariants: reverse
entries always point at a matching forward entry, reverse keys stay
distinct, and every table keeps distinct slugs. -/
theorem build_registry_for_app_inv (f : String → Except PyExn (List SingTree))
    (reg : Registry) (idk : IdToKey) (app token : String)
    (hG : ∀ sid a k, assocGet idk sid = some (a, k) →
      ∃ tbl e, assocGet reg a = some tbl ∧ assocGet tbl k = some e ∧ e.id = sid)
    (hndk : (idk.map Prod.fst).Nodup)
    (hT : ∀ a tbl, assocGet reg a = some tbl → (tbl.map Prod.fst).Nodup) :
    (∀ sid a k, assocGet (build_registry_for_app f reg idk app token).2.1 sid = some (a, k) →
      ∃ tbl e, assocGet (build_registry_for_app f reg idk app token).1 a = some tbl ∧
        assocGet tbl k = some e ∧ e.id = sid)
    ∧ (((build_registry_for_app f reg idk app token).2.1.map Prod.fst).Nodup)
    ∧ (∀ a tbl, assocGet (build_registry_for_app f reg idk app token).1 a = some tbl →
        (tbl.map Prod.fst).Nodup) := by
  have hidk0get : ∀ sid a k,
      assocGet (if (assocGet reg app).isSome then
        idk.filter (fun kv => kv.2.1 != app) else idk) sid = some (a, k) →
      a ≠ app ∧ assocGet idk sid = some (a, k) := by
    intro sid a k h
    by_cases hA : (assocGet reg app).isSome
    · rw [if_pos hA] at h
      have hm := assocGet_mem _ _ _ h
      have hp := (List.mem_filter.mp hm).2
      simp only [bne_iff_ne, ne_eq] at hp
      exact ⟨hp, assocGet_filter _ _ _ _ hndk h⟩
    · rw [if_neg hA] at h
      refine ⟨?_, h⟩
      intro ha
      obtain ⟨tbl, e, htbl, _⟩ := hG sid a k h
      rw [ha] at htbl
      rw [htbl] at hA
      exact hA (by simp)
  have hidk0nd : ((if (assocGet reg app).isSome then
      idk.filter (fun kv => kv.2.1 != app) else idk).map Prod.fst).Nodup := by
    by_cases hA : (assocGet reg app).isSome
    · rw [if_pos hA]
      exact nodup_keys_filter _ _ hndk
    · rw [if_neg hA]
      exact hndk
  unfold build_registry_for_app
  rcases hf : f token with e0 | data
  · dsimp only
    refine ⟨?_, hidk0nd, ?_⟩
    · intro sid a k h
      obtain ⟨hne, horig⟩ := hidk0get sid a k h
      obtain ⟨tbl, e, htbl, hk, hid⟩ := hG sid a k horig
      refine ⟨tbl, e, ?_, hk, hid⟩
      rw [assocGet_assocSet_ne _ _ _ _ (fun hh => hne hh)]
      exact htbl
    · intro a tbl h
      by_cases ha : a = app
      · subst ha
        rw [assocGet_assocSet_self] at h
        injection h with h1
        rw [← h1]
        simp
      · rw [assocGet_assocSet_ne _ _ _ _ ha] at h
        exact hT a tbl h
  · dsimp only
    obtain ⟨g1, g2, g3, g4⟩ := registryFold_inv app token (walkForest data) []
      (if (assocGet reg app).isSome then idk.filter (fun kv => kv.2.1 != app) else idk)
      (by simp) hidk0nd
      (fun sid a k h ha => absurd ha (hidk0get sid a k h).1)
    refine ⟨?_, g2, ?_⟩
    · intro sid a k h
      by_cases ha : a = app
      · subst ha
        obtain ⟨e, he, hid⟩ := g3 sid a k h rfl
        exact ⟨_, e, assocGet_assocSet_self _ _ _, he, hid⟩
      · have horig := g4 sid a k h ha
        obtain ⟨hne, horig2⟩ := hidk0get sid a k horig
        obtain ⟨tbl, e, htbl, hk, hid⟩ := hG sid a k horig2
        refine ⟨tbl, e, ?_, hk, hid⟩
        rw [assocGet_assocSet_ne _ _ _ _ ha, assocGet_assocSet_ne _ _ _ _ ha]
        exact htbl
    · intro a tbl h
      by_cases ha : a = app
      · subst ha
        rw [assocGet_assocSet_self] at h
        injection h with h1
        rw [← h1]
        exact g1
      · rw [assocGet_assocSet_ne _ _ _ _ ha, assocGet_assocSet_ne _ _ _ _ ha] at h
        exact hT a tbl h

/-- The full rebuild keeps the global invariants from any starting state
satisfying them. -/
theorem build_registry_fold_inv (f : String → Except PyExn (List SingTree)) :
    ∀ (tokens : List (String × String)) (reg : Registry) (idk : IdToKey),
      (∀ sid a k, assocGet idk sid = some (a, k) →
        ∃ tbl e, assocGet reg a = some tbl ∧ assocGet tbl k = some e ∧ e.id = sid) →
      (idk.map Prod.fst).Nodup →
      (∀ a tbl, assocGet reg a = some tbl → (tbl.map Prod.fst).Nodup) →
      (∀ sid a k, assocGet (tokens.foldl (fun acc kv =>
          ((build_registry_for_app f acc.1 acc.2 kv.1 kv.2).1,
            (build_registry_for_app f acc.1 acc.2 kv.1 kv.2).2.1)) (reg, idk)).2 sid =
          some (a, k) →
        ∃ tbl e, assocGet (tokens.foldl (fun acc kv =>
          ((build_registry_for_app f acc.1 acc.2 kv.1 kv.2).1,
            (build_registry_for_app f acc.1 acc.2 kv.1 kv.2).2.1)) (reg, idk)).1 a =
            some tbl ∧ assocGet tbl k = some e ∧ e.id = sid)
      ∧ (∀ a tbl, assocGet (tokens.foldl (fun acc kv =>
          ((build_registry_for_app f acc.1 acc.2 kv.1 kv.2).1,
            (build_registry_for_app f acc.1 acc.2 kv.1 kv.2).2.1)) (reg, idk)).1 a =
            some tbl → (tbl.map Prod.fst).Nodup) := by
  intro tokens
  induction tokens with
  | nil =>
    intro reg idk hG hndk hT
    exact ⟨hG, hT⟩
  | cons kv tokens ih =>
    intro reg idk hG hndk hT
    simp only [List.foldl_cons]
    obtain ⟨g1, g2, g3⟩ := build_registry_for_app_inv f reg idk kv.1 kv.2 hG hndk hT
    exact ih (build_registry_for_app f reg idk kv.1 kv.2).1
      (build_registry_for_app f reg idk kv.1 kv.2).2.1 g1 g2 g3

/-- C8 (amended): every per-app rebuild — from any state satisfying the
registry invariants — and every full rebuild leaves the two maps consistent
in the reverse-to-forward direction: every reverse-index entry points at a
forward entry carrying the same remote id (the forward-to-reverse direction
fails for documents repeating a node id, see the counterexample); and a
per-app rebuild whose model fetch fails leaves that app's freshly cleared
(empty) table in place — with the app's reverse entries purged together
with it — not the previous snapshot. -/
theorem registry_rebuild_consistency_and_clear :
    (∀ (f : String → Except PyExn (List SingTree)) (reg : Registry) (idk : IdToKey)
        (app token : String),
      (∀ sid a k, assocGet idk sid = some (a, k) →
        ∃ tbl e, assocGet reg a = some tbl ∧ assocGet tbl k = some e ∧ e.id = sid) →
      (idk.map Prod.fst).Nodup →
      (∀ a tbl, assocGet reg a = some tbl → (tbl.map Prod.fst).Nodup) →
      ∀ sid a k, assocGet (build_registry_for_app f reg idk app token).2.1 sid =
          some (a, k) →
        ∃ tbl e, assocGet (build_registry_for_app f reg idk app token).1 a = some tbl ∧
          assocGet tbl k = some e ∧ e.id = sid)
    ∧ (∀ (f : String → Except PyExn (List SingTree)) (tokens : List (String × String))
        (sid a k : String),
      assocGet (build_registry f tokens).2 sid = some (a, k) →
      ∃ tbl e, assocGet (build_registry f tokens).1 a = some tbl ∧
        assocGet tbl k = some e ∧ e.id = sid)
    ∧ (∀ (f : String → Except PyExn (List SingTree)) (reg : Registry) (idk : IdToKey)
        (app token : String) (e0 : PyExn),
      (∀ sid a k, assocGet idk sid = some (a, k) →
        ∃ tbl e, assocGet reg a = some tbl ∧ assocGet tbl k = some e ∧ e.id = sid) →
      (idk.map Prod.fst).Nodup →
      f token = .error e0 →
      assocGet (build_registry_for_app f reg idk app token).1 app = some []
      ∧ (∀ sid a k, assocGet (build_registry_for_app f reg idk app token).2.1 sid =
          some (a, k) → a ≠ app)) := by
  refine ⟨?_, ?_, ?_⟩
  · intro f reg idk app token hG hndk hT
    exact (build_registry_for_app_inv f reg idk app token hG hndk hT).1
  · intro f tokens sid a k h
    exact (build_registry_fold_inv f tokens [] []
      (fun sid a k h => absurd h (by simp [assocGet]))
      (by simp)
      (fun a tbl h => absurd h (by simp [assocGet]))).1 sid a k h
  · intro f reg idk app token e0 hG hndk hfail
    constructor
    · unfold build_registry_for_app
      rw [hfail]
      dsimp only
      exact assocGet_assocSet_self _ _ _
    · intro sid a k h
      unfold build_registry_for_app at h
      rw [hfail] at h
      dsimp only at h
      by_cases hA : (assocGet reg app).isSome
      · rw [if_pos hA] at h
        have hm := assocGet_mem _ _ _ h
        have hp := (List.mem_filter.mp hm).2
        simpa using hp
      · rw [if_neg hA] at h
        intro ha
        obtain ⟨tbl, e, htbl, _⟩ := hG sid a k h
        rw [ha] at htbl
        rw [htbl] at hA
        exact hA (by simp)

/-- C8 (counterexample): (i) rebuilding app `A` against a failing model
fetch leaves `A`'s table empty — the previous entry under slug `x` is gone,
so a failed rebuild does not keep the prior snapshot visible; (ii) the
forward-to-reverse direction of slug/id consistency fails for a document
repeating a node id: two nodes with the same id `X` named `A` and `B` leave
two forward entries (slugs `a` and `b`, both carrying id `X`) but a single
reverse entry sending `X` to slug `b`, so the forward entry under `a` has
no matching reverse entry. -/
theorem registry_failed_fetch_clears_table :
    ((build_registry_for_app (fun _ => .error (.requestError "fetch failed"))
      [("A", [("x", ⟨"idX", "X", [], "A", "tok"⟩)])] [("idX", ("A", "x"))] "A" "tok").1 =
      [("A", [])]
    ∧ (build_registry_for_app (fun _ => .error (.requestError "fetch failed"))
      [("A", [("x", ⟨"idX", "X", [], "A", "tok"⟩)])] [("idX", ("A", "x"))] "A" "tok").2.1 = []
    ∧ ([] : AppTable) ≠ [("x", (⟨"idX", "X", [], "A", "tok"⟩ : RegEntry))])
    ∧ (assocGet (build_registry_for_app
        (fun _ => .ok [SingTree.node (some "X") (some "A") (some []) [] [],
          SingTree.node (some "X") (some "B") (some []) [] []])
        [] [] "app" "t").1 "app" =
        some [("a", ⟨"X", "A", [], "app", "t"⟩), ("b", ⟨"X", "B", [], "app", "t"⟩)]
    ∧ (build_registry_for_app
        (fun _ => .ok [SingTree.node (some "X") (some "A") (some []) [] [],
          SingTree.node (some "X") (some "B") (some []) [] []])
        [] [] "app" "t").2.1 = [("X", ("app", "b"))]
    ∧ ("app", "b") ≠ ("app", "a")) := by
  refine ⟨⟨rfl, rfl, ?_⟩, rfl, rfl, ?_⟩
  · simp
  · simp

/-- Witness for C8's amended theorem at a concrete failing fetch. -/
theorem registry_rebuild_consistency_and_clear_witness :
    assocGet (build_registry_for_app (fun _ => .error (.requestError "down"))
      [] [] "A" "tok").1 "A" = some [] :=
  (registry_rebuild_consistency_and_clear.2.2 (fun _ => .error (.requestError "down"))
    [] [] "A" "tok" (.requestError "down")
    (fun sid a k h => absurd h (by simp [assocGet]))
    (by simp)
    rfl).1

/-- C7: slugs are unique within one application's registry table, and two
nodes both named "Lower Third" (distinct ids) get the slugs `lower-third`
and `lower-third-2` in first-seen order, each reverse-resolving (also via
`kfind`) to its own id. -/
theorem registry_slugs_unique_and_collision_suffixed :
    (∀ (f : String → Except PyExn (List SingTree)) (tokens : List (String × String))
        (app : String) (tbl : AppTable),
      assocGet (build_registry f tokens).1 app = some tbl → (tbl.map Prod.fst).Nodup)
    ∧ ((build_registry
        (fun _ => .ok [SingTree.node (some "idA") (some "Lower Third") (some []) [] [],
          SingTree.node (some "idB") (some "Lower Third") (some []) [] []])
        [("app", "tok")]).1 =
        [("app", [("lower-third", ⟨"idA", "Lower Third", [], "app", "tok"⟩),
          ("lower-third-2", ⟨"idB", "Lower Third", [], "app", "tok"⟩)])]
      ∧ (build_registry
        (fun _ => .ok [SingTree.node (some "idA") (some "Lower Third") (some []) [] [],
          SingTree.node (some "idB") (some "Lower Third") (some []) [] []])
        [("app", "tok")]).2 =
        [("idA", ("app", "lower-third")), ("idB", ("app", "lower-third-2"))]
      ∧ kfind (build_registry
          (fun _ => .ok [SingTree.node (some "idA") (some "Lower Third") (some []) [] [],
            SingTree.node (some "idB") (some "Lower Third") (some []) [] []])
          [("app", "tok")]).1
        (build_registry
          (fun _ => .ok [SingTree.node (some "idA") (some "Lower Third") (some []) [] [],
            SingTree.node (some "idB") (some "Lower Third") (some []) [] []])
          [("app", "tok")]).2 "idA" none = .ok ("app", "lower-third")
      ∧ kfind (build_registry
          (fun _ => .ok [SingTree.node (some "idA") (some "Lower Third") (some []) [] [],
            SingTree.node (some "idB") (some "Lower Third") (some []) [] []])
          [("app", "tok")]).1
        (build_registry
          (fun _ => .ok [SingTree.node (some "idA") (some "Lower Third") (some []) [] [],
            SingTree.node (some "idB") (some "Lower Third") (some []) [] []])
          [("app", "tok")]).2 "idB" none = .ok ("app", "lower-third-2")) := by
  constructor
  · intro f tokens app tbl h
    exact (build_registry_fold_inv f tokens [] []
      (fun sid a k h => absurd h (by simp [assocGet]))
      (by simp)
      (fun a tbl h => absurd h (by simp [assocGet]))).2 app tbl h
  · exact ⟨rfl, rfl, rfl, rfl⟩

/-- Witness for C7's uniqueness clause at the concrete two-node build. -/
theorem registry_slugs_unique_and_collision_suffixed_witness :
    (([("lower-third", (⟨"idA", "Lower Third", [], "app", "tok"⟩ : RegEntry)),
      ("lower-third-2", ⟨"idB", "Lower Third", [], "app", "tok"⟩)] : AppTable).map
      Prod.fst).Nodup :=
  registry_slugs_unique_and_collision_suffixed.1
    (fun _ => .ok [SingTree.node (some "idA") (some "Lower Third") (some []) [] [],
      SingTree.node (some "idB") (some "Lower Third") (some []) [] []])
    [("app", "tok")] "app" _ rfl
